import Mathlib

/-!
# Verification of the fotobilder-spiegel crawler (fbsnarf)

Shallow embedding of the final revision of the mirroring tool
(`src/unnamed/part_001`).  The program is a concurrent crawler; we embed it
as a sequential state machine whose atomic steps are the bodies of the
spawned goroutines, which is faithful because every access to shared state
in the source is protected by a mutex (galleryMutex, picMutex, opsMutex,
errorMutex) and the per-goroutine bodies only communicate through that
shared state.

Modelling choices, stated once:
* byte strings (file contents, HTTP bodies) are Lean `String`s; `fi.Size`
  is the length of the stored string;
* the two collaborator calls (`http.Get` + `ioutil.ReadAll`, and
  `xml.Unmarshal`) are oracles carried in a `Ctx` record, as is the
  possibility of an `ioutil.WriteFile` failure;
* `log.Exitf` (used by `addError` in fail-fast mode and by
  `fetchGalleryPage`) calls `os.Exit(1)`, which skips deferred calls and
  kills the whole process: we model it by a `halted = some (.exited 1)`
  flag that freezes the state; a Go `panic` also kills the process but
  first runs the deferred calls of its goroutine
  (`halted = some (.panicked msg)`);
* `go f(x)` pushes a task on a `pending` queue; a scheduler step pops an
  arbitrary pending task (any order is reachable via the rotation index)
  and runs its body atomically;
* ghost fields (`events`, `spawned`, `execHist`, `pagesFetched`) record
  the histories needed to state the claims; they are write-only and never
  read by the embedded code.
-/

/-- One byte of the `[0-9a-z]` character class used by `galleryPattern`
and `picPattern` in the source. -/
def isKeyChar (c : Char) : Bool :=
  (48 ≤ c.toNat && c.toNat ≤ 57) || (97 ≤ c.toNat && c.toNat ≤ 122)

/-- Try to match the regular expression `<pat>([0-9a-z]{8})` anchored at
the start of `s`; on success return the 8 captured characters. -/
def tryMatch (pat : List Char) (s : List Char) : Option (List Char) :=
  if pat.isPrefixOf s then
    let rest := s.drop pat.length
    let key := rest.take 8
    if key.length = 8 && key.all isKeyChar then some key else none
  else none

/-- `FindStringSubmatch`: leftmost match of `<pat>([0-9a-z]{8})` in `s`,
returning the captured group. -/
def findSub (pat : List Char) : List Char → Option (List Char)
  | [] => none
  | c :: rest =>
    match tryMatch pat (c :: rest) with
    | some key => some key
    | none => findSub pat rest

/-- Fuelled worker for `findAllSub` (structural recursion so that the
kernel can evaluate it on concrete inputs). -/
def findAllSubF (pat : List Char) : Nat → List Char → List (List Char)
  | 0, _ => []
  | _, [] => []
  | fuel + 1, c :: rest =>
    match tryMatch pat (c :: rest) with
    | some key => key :: findAllSubF pat fuel (rest.drop (pat.length + 7))
    | none => findAllSubF pat fuel rest

/-- `FindAllStringSubmatch(s, -1)`: successive non-overlapping leftmost
matches, each contributing its captured 8-character group. -/
def findAllSub (pat : List Char) (s : List Char) : List (List Char) :=
  findAllSubF pat s.length s

/-- The literal part of `galleryPattern` (`/gallery/([0-9a-z]{8})`). -/
def galleryPat : List Char := "/gallery/".data

/-- The literal part of `picPattern` (`/pic/([0-9a-z]{8})`). -/
def picPat : List Char := "/pic/".data

/-- `findKey` from the source.  A string of length 8 is returned as the
key without any further validation; otherwise the pattern is applied and
a failed match (or a capture that is not 8 characters long, which cannot
happen) is the fatal `panic` — modelled as `none`. -/
def findKey (keyOrUrl : String) (pat : List Char) : Option String :=
  if keyOrUrl.length = 8 then some keyOrUrl
  else
    match findSub pat keyOrUrl.data with
    | none => none
    | some ks => if ks.length ≠ 8 then none else some (String.mk ks)

/-- `DigestInfo` (Go field names `Type`/`Value` are not legal in Lean). -/
structure DigestInfo where
  typ : String
  val : String
deriving DecidableEq, Repr

/-- `MediaFile`: the `<file>` element of a pic's XML, as parsed from the
enclosing gallery's metadata.  `bytes` is the Go `int64` field. -/
structure MediaFile where
  digest : DigestInfo
  mime : String
  width : Int
  height : Int
  bytes : Int
  url : String
deriving DecidableEq, Repr

/-- `MediaSetItem`: one pic entry of a gallery's metadata, plus the
8-character `key` attached after parsing. -/
structure MediaSetItem where
  title : String
  description : String
  infoURL : String
  file : MediaFile
  key : String
deriving DecidableEq, Repr

/-- `MediaSet`: the parsed gallery metadata (items plus linked-from and
linked-to gallery URLs; the wrapper structs are flattened). -/
structure MediaSet where
  mediaSetItems : List MediaSetItem
  linkedFrom : List String
  linkedTo : List String
deriving DecidableEq, Repr

/-- `Gallery`: just the 8-character key. -/
structure Gallery where
  key : String
deriving DecidableEq, Repr

/-- A pending goroutine: the body it will run. -/
inductive CrawlTask
  | galleryFetch (key : String)
  | photosInGallery (filename : String)
  | picFetch (item : MediaSetItem)
deriving DecidableEq, Repr

/-- Ghost trace events: counter increments/decrements, semaphore slot
traffic, and actual network retrievals. -/
inductive Event
  | incrOps | decrOps
  | acquireNet | releaseNet | acquireLocal | releaseLocal
  | netGet (url : String)
deriving DecidableEq, Repr

/-- How the process died, if it did. -/
inductive Halt
  | exited (code : Nat)
  | panicked (msg : String)
deriving DecidableEq, Repr

/-- Outcome of `http.Get` followed by `ioutil.ReadAll`. -/
inductive NetResult
  | getFail
  | readFail
  | ok (body : String)
deriving DecidableEq, Repr

/-- The shared program state (the Go globals), plus ghost history. -/
structure St where
  galleryMap : List (String × Gallery)
  picMap : List (String × MediaSetItem)
  opsInFlight : Int
  fs : List (String × String)
  errors : List String
  halted : Option Halt
  pending : List CrawlTask
  spawned : List CrawlTask
  execHist : List CrawlTask
  events : List Event
  pagesFetched : List Nat
deriving DecidableEq, Repr

/-- The configuration flags and the external collaborators (transport,
parser, filesystem write failures). -/
structure Ctx where
  flagBase : String
  flagDest : String
  flagSloppy : Bool
  net : String → NetResult
  writeFails : String → Bool
  parse : String → Option MediaSet

/-- Run `f` only if the process is still alive (deferred calls and
continuations do not run after `os.Exit`). -/
def ifLive (f : St → St) (s : St) : St :=
  if s.halted.isSome then s else f s

/-- `addError`: append to the error log; in fail-fast mode `log.Exitf`
kills the process with status 1. -/
def addError (ctx : Ctx) (msg : String) (s : St) : St :=
  let s1 := { s with errors := s.errors ++ [msg] }
  if ctx.flagSloppy then s1 else { s1 with halted := some (.exited 1) }

/-- `NewLocalOperation`: increment the global counter under `opsMutex`,
then acquire a `localOpGate` slot. -/
def NewLocalOperation (s : St) : St :=
  { s with opsInFlight := s.opsInFlight + 1
           events := s.events ++ [.incrOps, .acquireLocal] }

/-- `NewNetworkOperation`: increment the global counter under `opsMutex`,
then acquire a `networkOpGate` slot. -/
def NewNetworkOperation (s : St) : St :=
  { s with opsInFlight := s.opsInFlight + 1
           events := s.events ++ [.incrOps, .acquireNet] }

/-- `LocalOperation.Done`: release the slot, then decrement the counter. -/
def doneLocal (s : St) : St :=
  { s with opsInFlight := s.opsInFlight - 1
           events := s.events ++ [.releaseLocal, .decrOps] }

/-- `NetworkOperation.Done`: release the slot, then decrement the counter. -/
def doneNetwork (s : St) : St :=
  { s with opsInFlight := s.opsInFlight - 1
           events := s.events ++ [.releaseNet, .decrOps] }

/-- `OperationsInFlight`: guarded read of the counter. -/
def OperationsInFlight (s : St) : Int :=
  s.opsInFlight

/-- `go <task>(…, NewLocalOperation())`: the new operation is admitted at
spawn time, then the goroutine is queued. -/
def spawnLocal (t : CrawlTask) (s : St) : St :=
  let s1 := NewLocalOperation s
  { s1 with pending := s1.pending ++ [t], spawned := s1.spawned ++ [t] }

/-- `os.Stat`: size of the file if present. -/
def statSize (fs : List (String × String)) (filename : String) : Option Nat :=
  (fs.lookup filename).map String.length

/-- The part of `fetchUrlToFile` after the skip check: admit a network
operation, `http.Get` + `ReadAll`, `WriteFile`, recording soft errors via
`addError`.  The `defer netop.Done()` runs on every function exit (but
not after `os.Exit`). -/
def fetchUrlToFileBody (ctx : Ctx) (url filename : String) (s : St) : Bool × St :=
  let s1 := NewNetworkOperation s
  let s2 := { s1 with events := s1.events ++ [.netGet url] }
  match ctx.net url with
  | .getFail =>
    (false, ifLive doneNetwork (addError ctx ("Error fetching " ++ url) s2))
  | .readFail =>
    (false, ifLive doneNetwork (addError ctx ("Error reading XML from " ++ url) s2))
  | .ok body =>
    if ctx.writeFails filename then
      (false, ifLive doneNetwork (addError ctx ("Error writing file " ++ filename) s2))
    else
      (true, doneNetwork { s2 with fs := (filename, body) :: s2.fs })

/-- `fetchUrlToFile(url, filename, expectedSize)`.  Skip (return true with
no network traffic) if the file exists and `expectedSize == -1 && size > 0
|| expectedSize == size` (Go precedence: `&&` binds tighter than `||`);
otherwise run the fetch body. -/
def fetchUrlToFile (ctx : Ctx) (url filename : String) (expectedSize : Int)
    (s : St) : Bool × St :=
  match statSize s.fs filename with
  | some size =>
    if (expectedSize = -1 ∧ 0 < size) ∨ expectedSize = (size : Int) then
      (true, s)
    else
      fetchUrlToFileBody ctx url filename s
  | none => fetchUrlToFileBody ctx url filename s

/-- `Gallery.XmlUrl`. -/
def Gallery.XmlUrl (ctx : Ctx) (g : Gallery) : String :=
  ctx.flagBase ++ "/gallery/" ++ g.key ++ ".xml"

/-- The local file `Gallery.Fetch` writes the gallery metadata to. -/
def galleryXmlFilename (ctx : Ctx) (key : String) : String :=
  ctx.flagDest ++ "/gallery-" ++ key ++ ".xml"

/-- `MediaSetItem.XmlUrl`. -/
def MediaSetItem.XmlUrl (ctx : Ctx) (p : MediaSetItem) : String :=
  ctx.flagBase ++ "/pic/" ++ p.key ++ ".xml"

/-- `MediaSetItem.BlobUrl`. -/
def MediaSetItem.BlobUrl (ctx : Ctx) (p : MediaSetItem) : String :=
  ctx.flagBase ++ "/pic/" ++ p.key

/-- `MediaSetItem.XmlBackupFilename`. -/
def MediaSetItem.XmlBackupFilename (ctx : Ctx) (p : MediaSetItem) : String :=
  ctx.flagDest ++ "/pic-" ++ p.key ++ ".xml"

/-- The extension the `switch p.File.Mime` statement chooses (empty for an
unrecognized MIME type). -/
def mimeExt (mime : String) : String :=
  if mime = "image/jpeg" then "jpg"
  else if mime = "image/png" then "png"
  else if mime = "image/gif" then "gif"
  else ""

/-- `MediaSetItem.BlobBackupFilename` (note the trailing dot when the MIME
type is unrecognized, exactly as `%s/pic-%s.%s` produces). -/
def MediaSetItem.BlobBackupFilename (ctx : Ctx) (p : MediaSetItem) : String :=
  ctx.flagDest ++ "/pic-" ++ p.key ++ "." ++ mimeExt p.file.mime

/-- `Gallery.Fetch(op)`: fetch the gallery metadata (unknown expected
size); on success spawn `fetchPhotosInGallery` with a fresh local
operation; `defer op.Done()` on every live exit. -/
def Gallery.Fetch (ctx : Ctx) (g : Gallery) (s : St) : St :=
  let fn := galleryXmlFilename ctx g.key
  let r := fetchUrlToFile ctx (Gallery.XmlUrl ctx g) fn (-1) s
  let s2 := if r.1 then ifLive (spawnLocal (.photosInGallery fn)) r.2 else r.2
  ifLive doneLocal s2

/-- `noteGallery(keyOrUrl)`: extract the key (fatal panic on failure),
then check-and-insert under `galleryMutex`; only a newly inserted key
spawns a `Gallery.Fetch`. -/
def noteGallery (ctx : Ctx) (keyOrUrl : String) (s : St) : St :=
  if s.halted.isSome then s
  else
    match findKey keyOrUrl galleryPat with
    | none => { s with halted := some (.panicked ("Failed to parse: " ++ keyOrUrl)) }
    | some key =>
      if (s.galleryMap.lookup key).isSome then s
      else
        spawnLocal (.galleryFetch key)
          { s with galleryMap := (key, ⟨key⟩) :: s.galleryMap }

/-- `notePhoto(pic)`: check-and-insert under `picMutex` keyed on
`pic.key`; only a newly inserted key spawns a `MediaSetItem.Fetch`. -/
def notePhoto (pic : MediaSetItem) (s : St) : St :=
  if s.halted.isSome then s
  else if (s.picMap.lookup pic.key).isSome then s
  else
    spawnLocal (.picFetch pic) { s with picMap := (pic.key, pic) :: s.picMap }

/-- The per-item step of `fetchPhotosInGallery`'s last loop:
`item.key = findKey(item.InfoURL, picPattern)` (fatal panic on failure)
followed by `notePhoto(&item)`. -/
def notePhotoFromItem (item : MediaSetItem) (s : St) : St :=
  if s.halted.isSome then s
  else
    match findKey item.infoURL picPat with
    | none => { s with halted := some (.panicked ("Failed to parse: " ++ item.infoURL)) }
    | some k => notePhoto { item with key := k } s

/-- `fetchPhotosInGallery(filename, op)`: open and unmarshal the saved
gallery metadata (soft errors), then note every linked-from and linked-to
gallery and every contained pic; `defer op.Done()`. -/
def fetchPhotosInGallery (ctx : Ctx) (filename : String) (s : St) : St :=
  match s.fs.lookup filename with
  | none => ifLive doneLocal (addError ctx ("Failed to open " ++ filename) s)
  | some content =>
    match ctx.parse content with
    | none => ifLive doneLocal (addError ctx ("Failed to unmarshal " ++ filename) s)
    | some ms =>
      let s1 := ms.linkedFrom.foldl (fun t url => noteGallery ctx url t) s
      let s2 := ms.linkedTo.foldl (fun t url => noteGallery ctx url t) s1
      let s3 := ms.mediaSetItems.foldl (fun t item => notePhotoFromItem item t) s2
      ifLive doneLocal s3

/-- `MediaSetItem.Fetch(op)`: fetch the pic's own XML (unknown expected
size); on failure return; then panic unless the gallery metadata declared
a strictly positive byte size; then fetch the blob with that exact
expected size.  A panic runs the deferred `op.Done()` before killing the
process. -/
def MediaSetItem.Fetch (ctx : Ctx) (p : MediaSetItem) (s : St) : St :=
  let r := fetchUrlToFile ctx (MediaSetItem.XmlUrl ctx p) (MediaSetItem.XmlBackupFilename ctx p) (-1) s
  if !r.1 then ifLive doneLocal r.2
  else if p.file.bytes ≤ 0 then
    { doneLocal r.2 with halted := some (.panicked "expected file to have some known file size") }
  else
    ifLive doneLocal
      (fetchUrlToFile ctx (MediaSetItem.BlobUrl ctx p) (MediaSetItem.BlobBackupFilename ctx p) p.file.bytes r.2).2

/-- `knownGalleries()`: size of the gallery map under its mutex. -/
def knownGalleries (s : St) : Nat :=
  s.galleryMap.length

/-- The listing-page URL `%s/?sort=alpha&page=%d`. -/
def pageUrl (ctx : Ctx) (page : Nat) : String :=
  ctx.flagBase ++ "/?sort=alpha&page=" ++ toString page

/-- `fetchGalleryPage(page)`: fetch the listing page (any transport or
read error is `log.Exitf`, fatal), match every `/gallery/<key>` reference
and `noteGallery` each captured key.  The fetched page number is recorded
in ghost state. -/
def fetchGalleryPage (ctx : Ctx) (page : Nat) (s : St) : St :=
  let s0 := { s with pagesFetched := s.pagesFetched ++ [page],
                     events := s.events ++ [.netGet (pageUrl ctx page)] }
  match ctx.net (pageUrl ctx page) with
  | .getFail => { s0 with halted := some (.exited 1) }
  | .readFail => { s0 with halted := some (.exited 1) }
  | .ok html =>
    (findAllSub galleryPat html.data).foldl
      (fun t ks => noteGallery ctx (String.mk ks) t) s0

/-- The frontier loop of `main`: starting at `page`, fetch pages and stop
the first time the before/after `knownGalleries()` comparison shows no
novelty.  `fuel` bounds the iterations (the loop itself has no bound). -/
def frontierLoop (ctx : Ctx) : Nat → Nat → St → St
  | 0, _, s => s
  | fuel + 1, page, s =>
    if s.halted.isSome then s
    else
      let countBefore := knownGalleries s
      let s1 := fetchGalleryPage ctx page s
      if s1.halted.isSome then s1
      else if knownGalleries s1 = countBefore then s1
      else frontierLoop ctx fuel (page + 1) s1

/-- Dispatch a popped task to its goroutine body. -/
def runTask (ctx : Ctx) (t : CrawlTask) (s : St) : St :=
  match t with
  | .galleryFetch key => Gallery.Fetch ctx ⟨key⟩ s
  | .photosInGallery fn => fetchPhotosInGallery ctx fn s
  | .picFetch item => MediaSetItem.Fetch ctx item s

/-- Rotate a list by `i % length` (used to let a scheduler step pick an
arbitrary pending task). -/
def rotZ (i : Nat) (l : List CrawlTask) : List CrawlTask :=
  l.drop (i % l.length) ++ l.take (i % l.length)

/-- One scheduler step: if the process is alive and work is pending, pick
the task selected by `i`, remove it from the queue, record it in the ghost
execution history, and run its body atomically. -/
def step (ctx : Ctx) (i : Nat) (s : St) : St :=
  if s.halted.isSome then s
  else
    match rotZ i s.pending with
    | [] => s
    | t :: rest =>
      runTask ctx t { s with pending := rest, execHist := s.execHist ++ [t] }

/-- Run `n` scheduler steps driven by the choice sequence `ch`. -/
def seqRun (ctx : Ctx) (ch : Nat → Nat) : Nat → St → St
  | 0, s => s
  | n + 1, s => seqRun ctx (fun i => ch (i + 1)) n (step ctx (ch 0) s)

/-- A state the scheduler cannot leave: the process died, or the task
queue is drained. -/
def finalSt (s : St) : Prop :=
  s.halted.isSome ∨ s.pending = []

instance : DecidablePred finalSt := fun s => by
  unfold finalSt; infer_instance

/-- The initial state: empty registries, zero counter, a given initial
filesystem (the backup destination may already hold files from an earlier
run), nothing pending. -/
def initSt (fs0 : List (String × String)) : St :=
  { galleryMap := [], picMap := [], opsInFlight := 0, fs := fs0,
    errors := [], halted := none, pending := [], spawned := [],
    execHist := [], events := [], pagesFetched := [] }

/-- Process listing pages `1 .. j` unconditionally (the frontier loop
without its stopping rule); reference point for stating when the loop
stops. -/
def pagesRun (ctx : Ctx) : Nat → St → St
  | 0, s => s
  | j + 1, s => fetchGalleryPage ctx (j + 1) (pagesRun ctx j s)

/-- The whole program: frontier from page 1 over the initial state, then
`n` scheduler steps of the fire-and-forget fetcher graph. -/
def crawlRun (ctx : Ctx) (fuel : Nat) (fs0 : List (String × String))
    (ch : Nat → Nat) (n : Nat) : St :=
  seqRun ctx ch n (frontierLoop ctx fuel 1 (initSt fs0))

/-- The skip condition of `fetchUrlToFile`, as a standalone predicate on
a filesystem (spec-side restatement used to phrase the claims). -/
def skipCheck (fs : List (String × String)) (filename : String)
    (expectedSize : Int) : Bool :=
  match fs.lookup filename with
  | some c => (expectedSize = -1 && 0 < c.length) || expectedSize = (c.length : Int)
  | none => false

/-- The in-flight counter is exactly the number of queued goroutines,
each of which owns exactly one admitted-but-unreleased operation. -/
def OpsInv (s : St) : Prop :=
  s.halted = none → s.opsInFlight = (s.pending.length : Int)

/-- Conservation of spawned goroutines: everything ever spawned is
either still queued or has been executed. -/
def Conserv (s : St) : Prop :=
  ∀ t : CrawlTask, s.spawned.count t = s.pending.count t + s.execHist.count t

/-- A `Gallery.Fetch` goroutine for key `k` has been spawned exactly once
iff `k` is registered (check-then-insert and spawn are atomic). -/
def GKey (s : St) : Prop :=
  ∀ k : String,
    s.spawned.count (.galleryFetch k) =
      (if (s.galleryMap.lookup k).isSome then 1 else 0)

/-- A `MediaSetItem.Fetch` goroutine for key `k` has been spawned exactly
once iff `k` is registered. -/
def PKey (s : St) : Prop :=
  ∀ k : String,
    (s.spawned.filter (fun t => match t with
      | .picFetch p => p.key = k | _ => false)).length =
      (if (s.picMap.lookup k).isSome then 1 else 0)

/-- Each metadata-parse goroutine for gallery `k` was spawned by an
execution of that gallery's fetcher. -/
def PhotoBound (ctx : Ctx) (s : St) : Prop :=
  ∀ k : String,
    s.spawned.count (.photosInGallery (galleryXmlFilename ctx k)) ≤
      s.execHist.count (.galleryFetch k)

/-- The bookkeeping invariants bundled. -/
def GoodT (ctx : Ctx) (s : St) : Prop :=
  Conserv s ∧ GKey s ∧ PKey s ∧ PhotoBound ctx s

/-- The number of universe keys not yet registered as galleries. -/
def missingG (ug : List String) (s : St) : Nat :=
  (ug.filter (fun k => (s.galleryMap.lookup k).isNone)).length

/-- The number of universe keys not yet registered as pics. -/
def missingP (up : List String) (s : St) : Nat :=
  (up.filter (fun k => (s.picMap.lookup k).isNone)).length

/-- Cost of a queued goroutine: the number of scheduler steps its subtree
can take not counting fresh registrations. -/
def costT : CrawlTask → Nat
  | .galleryFetch _ => 2
  | .photosInGallery _ => 1
  | .picFetch _ => 1

/-- Total cost of a queue. -/
def costL (l : List CrawlTask) : Nat :=
  (l.map costT).sum

/-- Termination measure of the crawl. -/
def measureSt (ug up : List String) (s : St) : Nat :=
  3 * missingG ug s + 2 * missingP up s + costL s.pending

/-- The reference graph is contained in finite key universes: every key
the metadata parser can ever mention lies in `ug` (galleries) or `up`
(pics).  Cycles are allowed. -/
def KeyBound (ctx : Ctx) (ug up : List String) : Prop :=
  ∀ content ms, ctx.parse content = some ms →
    (∀ url ∈ ms.linkedFrom ++ ms.linkedTo,
       ∀ k, findKey url galleryPat = some k → k ∈ ug) ∧
    (∀ item ∈ ms.mediaSetItems,
       ∀ k, findKey item.infoURL picPat = some k → k ∈ up)

/-- A goroutine body extends `spawned` and `pending` by the same new
tasks and never touches the execution history (only the scheduler does). -/
def SpawnSync (s s' : St) : Prop :=
  ∃ l, s'.spawned = s.spawned ++ l ∧ s'.pending = s.pending ++ l ∧
    s'.execHist = s.execHist

/-! Concrete contexts and records used by the witnesses and
counterexamples. -/

/-- A context whose transport always returns the three-byte body "abc". -/
def ctxAbc : Ctx :=
  { flagBase := "b", flagDest := "d", flagSloppy := true,
    net := fun _ => .ok "abc", writeFails := fun _ => false,
    parse := fun _ => none }

/-- A context whose transport always returns an empty body. -/
def ctxEmptyBody : Ctx :=
  { flagBase := "b", flagDest := "d", flagSloppy := true,
    net := fun _ => .ok "", writeFails := fun _ => false,
    parse := fun _ => none }

/-- A fail-fast context whose transport always fails. -/
def ctxFailFast : Ctx :=
  { flagBase := "b", flagDest := "d", flagSloppy := false,
    net := fun _ => .getFail, writeFails := fun _ => false,
    parse := fun _ => none }

/-- A continue-on-error context whose transport always fails. -/
def ctxSloppyFail : Ctx :=
  { flagBase := "b", flagDest := "d", flagSloppy := true,
    net := fun _ => .getFail, writeFails := fun _ => false,
    parse := fun _ => none }

/-- Two listing pages: page 1 yields galleries aaaaaaaa and bbbbbbbb,
page 2 yields only the already-known aaaaaaaa. -/
def ctxTwoPages : Ctx :=
  { flagBase := "b", flagDest := "d", flagSloppy := true,
    net := fun u =>
      if u = "b/?sort=alpha&page=1" then
        .ok "x/gallery/aaaaaaaa y/gallery/bbbbbbbb"
      else if u = "b/?sort=alpha&page=2" then
        .ok "x/gallery/aaaaaaaa"
      else .getFail,
    writeFails := fun _ => false,
    parse := fun _ => none }

/-- Gallery metadata of aaaaaaaa: links to bbbbbbbb, no pics. -/
def msA : MediaSet :=
  { mediaSetItems := [], linkedFrom := [], linkedTo := ["/gallery/bbbbbbbb"] }

/-- Gallery metadata of bbbbbbbb: links back to aaaaaaaa, no pics. -/
def msB : MediaSet :=
  { mediaSetItems := [], linkedFrom := ["/gallery/aaaaaaaa"], linkedTo := [] }

/-- A cyclic reference graph: the frontier seeds aaaaaaaa, whose metadata
links to bbbbbbbb, whose metadata links back to aaaaaaaa. -/
def ctxCycle : Ctx :=
  { flagBase := "b", flagDest := "d", flagSloppy := true,
    net := fun u =>
      if u = "b/?sort=alpha&page=1" then .ok "x/gallery/aaaaaaaa"
      else if u = "b/?sort=alpha&page=2" then .ok "no matches here"
      else if u = "b/gallery/aaaaaaaa.xml" then .ok "bodyA"
      else if u = "b/gallery/bbbbbbbb.xml" then .ok "bodyB"
      else .getFail,
    writeFails := fun _ => false,
    parse := fun c =>
      if c = "bodyA" then some msA
      else if c = "bodyB" then some msB
      else none }

/-- A concrete media item with key ccccdddd and declared size 3. -/
def picItemA : MediaSetItem :=
  { title := "t", description := "td",
    infoURL := "http://x/pic/ccccdddd.xml",
    file := { digest := ⟨"md5", "00"⟩, mime := "image/jpeg",
              width := 1, height := 1, bytes := 3, url := "http://raw/1" },
    key := "ccccdddd" }

/-- The same item discovered through a different spelling (different
metadata URL and raw URL), resolving to the same key. -/
def picItemA' : MediaSetItem :=
  { title := "t2", description := "td2",
    infoURL := "http://y/pic/ccccdddd.xml?alt=1",
    file := { digest := ⟨"md5", "11"⟩, mime := "image/png",
              width := 2, height := 2, bytes := 4, url := "http://raw/2" },
    key := "ccccdddd" }

/-- `picItemA` with a declared byte size of 0 (metadata lacking a
positive size). -/
def picItemZero : MediaSetItem :=
  { picItemA with file := { picItemA.file with bytes := 0 } }

/-! ## Basic equations and frame lemmas -/

theorem ifLive_of_halted (f : St → St) (s : St) (h : s.halted.isSome) :
    ifLive f s = s := by
  unfold ifLive; simp [h]

theorem ifLive_of_live (f : St → St) (s : St) (h : s.halted = none) :
    ifLive f s = f s := by
  unfold ifLive; simp [h]

theorem addError_eq (ctx : Ctx) (msg : String) (s : St) :
    addError ctx msg s =
      { s with errors := s.errors ++ [msg],
               halted := if ctx.flagSloppy then s.halted else some (.exited 1) } := by
  unfold addError
  split <;> simp_all

theorem fetchUrlToFileBody_frame (ctx : Ctx) (url fn : String) (s : St) :
    (fetchUrlToFileBody ctx url fn s).2.galleryMap = s.galleryMap ∧
    (fetchUrlToFileBody ctx url fn s).2.picMap = s.picMap ∧
    (fetchUrlToFileBody ctx url fn s).2.pending = s.pending ∧
    (fetchUrlToFileBody ctx url fn s).2.spawned = s.spawned ∧
    (fetchUrlToFileBody ctx url fn s).2.execHist = s.execHist ∧
    (fetchUrlToFileBody ctx url fn s).2.pagesFetched = s.pagesFetched := by
  unfold fetchUrlToFileBody
  cases ctx.net url <;>
    simp only [ifLive, addError_eq, doneNetwork, NewNetworkOperation] <;>
    split_ifs <;> simp

theorem fetchUrlToFile_frame (ctx : Ctx) (url fn : String) (esz : Int) (s : St) :
    (fetchUrlToFile ctx url fn esz s).2.galleryMap = s.galleryMap ∧
    (fetchUrlToFile ctx url fn esz s).2.picMap = s.picMap ∧
    (fetchUrlToFile ctx url fn esz s).2.pending = s.pending ∧
    (fetchUrlToFile ctx url fn esz s).2.spawned = s.spawned ∧
    (fetchUrlToFile ctx url fn esz s).2.execHist = s.execHist ∧
    (fetchUrlToFile ctx url fn esz s).2.pagesFetched = s.pagesFetched := by
  unfold fetchUrlToFile
  split
  · split
    · simp
    · exact fetchUrlToFileBody_frame ctx url fn s
  · exact fetchUrlToFileBody_frame ctx url fn s

theorem fetchUrlToFileBody_halted (ctx : Ctx) (url fn : String) (s : St) :
    (fetchUrlToFileBody ctx url fn s).2.halted = s.halted ∨
    (fetchUrlToFileBody ctx url fn s).2.halted = some (.exited 1) := by
  unfold fetchUrlToFileBody
  cases ctx.net url <;>
    simp only [ifLive, addError_eq, doneNetwork, NewNetworkOperation] <;>
    split_ifs <;> simp

theorem fetchUrlToFile_halted (ctx : Ctx) (url fn : String) (esz : Int) (s : St) :
    (fetchUrlToFile ctx url fn esz s).2.halted = s.halted ∨
    (fetchUrlToFile ctx url fn esz s).2.halted = some (.exited 1) := by
  unfold fetchUrlToFile
  split
  · split
    · simp
    · exact fetchUrlToFileBody_halted ctx url fn s
  · exact fetchUrlToFileBody_halted ctx url fn s

theorem fetchUrlToFileBody_live_ops (ctx : Ctx) (url fn : String) (s : St)
    (h : (fetchUrlToFileBody ctx url fn s).2.halted = none) :
    (fetchUrlToFileBody ctx url fn s).2.opsInFlight = s.opsInFlight := by
  revert h
  unfold fetchUrlToFileBody
  cases ctx.net url <;>
    simp only [ifLive, addError_eq, doneNetwork, NewNetworkOperation] <;>
    split_ifs <;> intro h <;> simp_all

theorem fetchUrlToFile_live_ops (ctx : Ctx) (url fn : String) (esz : Int) (s : St)
    (h : (fetchUrlToFile ctx url fn esz s).2.halted = none) :
    (fetchUrlToFile ctx url fn esz s).2.opsInFlight = s.opsInFlight := by
  revert h
  unfold fetchUrlToFile
  split
  · split
    · intro _; simp
    · exact fun h => fetchUrlToFileBody_live_ops ctx url fn s h
  · exact fun h => fetchUrlToFileBody_live_ops ctx url fn s h

theorem fetchUrlToFileBody_fs_other (ctx : Ctx) (url fn fn' : String) (s : St)
    (h : fn' ≠ fn) :
    (fetchUrlToFileBody ctx url fn s).2.fs.lookup fn' = s.fs.lookup fn' := by
  unfold fetchUrlToFileBody
  have hb : (fn' == fn) = false := by simp [h]
  cases ctx.net url <;>
    simp only [ifLive, addError_eq, doneNetwork, NewNetworkOperation] <;>
    split_ifs <;> simp [List.lookup, hb]

theorem fetchUrlToFile_fs_other (ctx : Ctx) (url fn fn' : String) (esz : Int) (s : St)
    (h : fn' ≠ fn) :
    (fetchUrlToFile ctx url fn esz s).2.fs.lookup fn' = s.fs.lookup fn' := by
  unfold fetchUrlToFile
  split
  · split
    · simp
    · exact fetchUrlToFileBody_fs_other ctx url fn fn' s h
  · exact fetchUrlToFileBody_fs_other ctx url fn fn' s h

theorem fetchUrlToFileBody_netGet_count (ctx : Ctx) (url fn u : String) (s : St) :
    (fetchUrlToFileBody ctx url fn s).2.events.count (.netGet u) =
      s.events.count (.netGet u) + (if u = url then 1 else 0) := by
  unfold fetchUrlToFileBody
  cases ctx.net url <;>
    simp only [ifLive, addError_eq, doneNetwork, NewNetworkOperation] <;>
    split_ifs <;> simp_all [List.count_append, List.count_cons]

/-! ## C9: findKey validates only non-8-character inputs -/

/-- C9: for every input string of length exactly 8, `findKey` returns the
input unchanged without validating it against the `[0-9a-z]` pattern (an
8-character string with uppercase or punctuation is accepted as a key);
only inputs whose length differs from 8 are matched against the pattern,
and for those a match failure is the fatal malformed-reference panic. -/
theorem C9_findKey_skips_validation (s t : String) (pat : List Char)
    (h8 : s.length = 8) (ht : t.length ≠ 8)
    (hm : findSub pat t.data = none) :
    findKey s pat = some s ∧
    findKey "AB!@ CD9" galleryPat = some "AB!@ CD9" ∧
    findKey t pat = none := by
  refine ⟨?_, by decide, ?_⟩
  · unfold findKey
    simp [h8]
  · unfold findKey
    simp [ht, hm]

/-- Witness for C9 at concrete inputs: the 8-character string with
uppercase and punctuation is accepted; a non-8-character string the
pattern cannot match panics. -/
theorem C9_findKey_skips_validation_witness :
    findKey "AB!@ CD9" galleryPat = some "AB!@ CD9" ∧
    findKey "http://x/nothing" galleryPat = none := by
  have h := C9_findKey_skips_validation "AB!@ CD9" "http://x/nothing" galleryPat
    (by decide) (by decide) (by decide)
  exact ⟨h.1, h.2.2⟩

/-! ## C10: media fetch URLs come from base + identifier only -/

/-- C10: `MediaSetItem.Fetch` retrieves the metadata and payload from
`<base>/pic/<id>.xml` and `<base>/pic/<id>`, built from the configured
base URL and the item's key; the item's remote-URL field (`File.Url`) and
its metadata-URL field (`InfoURL`) are ignored by the fetch: items
differing only in those fields fetch identically. -/
theorem C10_fetch_urls_ignore_item_urls (ctx : Ctx) (p : MediaSetItem)
    (u1 u2 : String) (s : St) :
    MediaSetItem.XmlUrl ctx p = ctx.flagBase ++ "/pic/" ++ p.key ++ ".xml" ∧
    MediaSetItem.BlobUrl ctx p = ctx.flagBase ++ "/pic/" ++ p.key ∧
    MediaSetItem.Fetch ctx
        { p with infoURL := u1, file := { p.file with url := u2 } } s =
      MediaSetItem.Fetch ctx p s := by
  refine ⟨?_, ?_, ?_⟩
  · unfold MediaSetItem.XmlUrl; simp [String.append_assoc]
  · unfold MediaSetItem.BlobUrl; simp [String.append_assoc]
  · rfl

/-! ## C2: the fetch primitive's skip condition and idempotence -/

theorem fetchUrlToFile_skip (ctx : Ctx) (url fn : String) (esz : Int) (s : St)
    (h : skipCheck s.fs fn esz = true) :
    fetchUrlToFile ctx url fn esz s = (true, s) := by
  unfold skipCheck at h
  unfold fetchUrlToFile statSize
  cases hl : s.fs.lookup fn
  · rw [hl] at h; simp at h
  · rw [hl] at h
    simp only [hl, Option.map_some']
    rw [if_pos (by simpa using h)]

theorem fetchUrlToFile_noskip (ctx : Ctx) (url fn : String) (esz : Int) (s : St)
    (h : skipCheck s.fs fn esz = false) :
    fetchUrlToFile ctx url fn esz s = fetchUrlToFileBody ctx url fn s := by
  unfold skipCheck at h
  unfold fetchUrlToFile statSize
  cases hl : s.fs.lookup fn
  · simp only [hl, Option.map_none']
  · rw [hl] at h
    simp only [hl, Option.map_some']
    rw [if_neg (by simpa using h)]

/-- C2 counterexample.  With a transport that returns an empty body, a
first call succeeds (writes the empty file) yet a second call with the
same arguments performs another network retrieval, refuting the
unconditional idempotence; and a zero-length file with `expectedSize = 0`
IS skipped (returned as success with no retrieval), refuting "an absent
or zero-length file is never skipped". -/
theorem C2_counterexample :
    ((fetchUrlToFile ctxEmptyBody "u" "f" (-1) (initSt [])).1 = true) ∧
    ((fetchUrlToFile ctxEmptyBody "u" "f" (-1)
        (fetchUrlToFile ctxEmptyBody "u" "f" (-1) (initSt [])).2).2.events.count
          (Event.netGet "u") = 2) ∧
    (fetchUrlToFile ctxAbc "u2" "f2" 0 (initSt [("f2", "")])
      = (true, initSt [("f2", "")])) := by
  refine ⟨by decide, by decide, by decide⟩

/-- C2 (amended): the skip condition is exact — a call returns success
with no state change and no network access exactly on the source's
condition (file present and (`expectedSize` = −1 with positive length,
or length = `expectedSize`)); any call not meeting it performs exactly
one retrieval of `url`; and a second call after a successful first call
performs no network access and returns success *provided* the file the
first call left satisfies the skip condition.  (A zero-length file is
skipped when `expectedSize` = 0, and absence of the skip condition —
absent file, or zero-length file with `expectedSize` = −1 — always
triggers a retrieval.) -/
theorem C2_fetch_skip_and_conditional_idempotence (ctx : Ctx)
    (url fn : String) (esz : Int) (s : St) :
    (skipCheck s.fs fn esz = true → fetchUrlToFile ctx url fn esz s = (true, s)) ∧
    (skipCheck s.fs fn esz = false →
       (fetchUrlToFile ctx url fn esz s).2.events.count (.netGet url) =
         s.events.count (.netGet url) + 1) ∧
    (∀ s', fetchUrlToFile ctx url fn esz s = (true, s') →
       skipCheck s'.fs fn esz = true →
       fetchUrlToFile ctx url fn esz s' = (true, s')) := by
  refine ⟨fun h => fetchUrlToFile_skip ctx url fn esz s h, fun h => ?_, ?_⟩
  · rw [fetchUrlToFile_noskip ctx url fn esz s h]
    simpa using fetchUrlToFileBody_netGet_count ctx url fn url s
  · exact fun s' _ h2 => fetchUrlToFile_skip ctx url fn esz s' h2

/-- Witness for the amended C2: a present 3-byte file with
`expectedSize` 3 is skipped; an absent file triggers exactly one
retrieval; re-running after a successful fetch whose body satisfies the
skip condition is a no-op success. -/
theorem C2_fetch_skip_and_conditional_idempotence_witness :
    fetchUrlToFile ctxAbc "u" "f" 3 (initSt [("f", "abc")])
      = (true, initSt [("f", "abc")]) ∧
    (fetchUrlToFile ctxAbc "u" "f" 3 (initSt [])).2.events.count (.netGet "u") =
      (initSt []).events.count (.netGet "u") + 1 ∧
    fetchUrlToFile ctxAbc "u" "f" (-1)
        (fetchUrlToFile ctxAbc "u" "f" (-1) (initSt [])).2
      = (true, (fetchUrlToFile ctxAbc "u" "f" (-1) (initSt [])).2) := by
  refine ⟨?_, ?_, ?_⟩
  · exact (C2_fetch_skip_and_conditional_idempotence ctxAbc "u" "f" 3
      (initSt [("f", "abc")])).1 (by decide)
  · exact (C2_fetch_skip_and_conditional_idempotence ctxAbc "u" "f" 3
      (initSt [])).2.1 (by decide)
  · exact (C2_fetch_skip_and_conditional_idempotence ctxAbc "u" "f" (-1)
      (initSt [])).2.2 _ (by decide) (by decide)

/-! ## C8: fail-fast vs continue-on-error -/

theorem fetchUrlToFileBody_sloppy_halted (ctx : Ctx) (url fn : String) (s : St)
    (hs : ctx.flagSloppy = true) :
    (fetchUrlToFileBody ctx url fn s).2.halted = s.halted := by
  unfold fetchUrlToFileBody
  cases ctx.net url <;>
    simp only [ifLive, addError_eq, doneNetwork, NewNetworkOperation, hs] <;>
    split_ifs <;> simp

theorem fetchUrlToFile_sloppy_halted (ctx : Ctx) (url fn : String) (esz : Int)
    (s : St) (hs : ctx.flagSloppy = true) :
    (fetchUrlToFile ctx url fn esz s).2.halted = s.halted := by
  unfold fetchUrlToFile
  split
  · split
    · simp
    · exact fetchUrlToFileBody_sloppy_halted ctx url fn s hs
  · exact fetchUrlToFileBody_sloppy_halted ctx url fn s hs

/-- C8: every recorded error is appended to the error log; in fail-fast
mode (`--sloppy` off) the process then terminates immediately with the
non-zero status 1, while in continue-on-error mode the process stays
alive and the failing branch (here: a gallery whose metadata fetch
failed) returns without spawning any further work, so the rest of the
crawl proceeds. -/
theorem C8_error_log_and_exit_modes (ctx : Ctx) (msg : String) (s : St)
    (g : Gallery) (hlive : s.halted = none) :
    (ctx.flagSloppy = false →
       (addError ctx msg s).errors = s.errors ++ [msg] ∧
       (addError ctx msg s).halted = some (.exited 1)) ∧
    (ctx.flagSloppy = true →
       (addError ctx msg s).errors = s.errors ++ [msg] ∧
       (addError ctx msg s).halted = none) ∧
    (ctx.flagSloppy = true →
       (fetchUrlToFile ctx (Gallery.XmlUrl ctx g)
           (galleryXmlFilename ctx g.key) (-1) s).1 = false →
       (Gallery.Fetch ctx g s).spawned = s.spawned ∧
       (Gallery.Fetch ctx g s).pending = s.pending ∧
       (Gallery.Fetch ctx g s).halted = none) := by
  refine ⟨fun hf => ?_, fun hs => ?_, fun hs hfail => ?_⟩
  · rw [addError_eq]; simp [hf]
  · rw [addError_eq]; simp [hs, hlive]
  · unfold Gallery.Fetch
    have hh := fetchUrlToFile_sloppy_halted ctx (Gallery.XmlUrl ctx g)
      (galleryXmlFilename ctx g.key) (-1) s hs
    rw [hlive] at hh
    have hfr := fetchUrlToFile_frame ctx (Gallery.XmlUrl ctx g)
      (galleryXmlFilename ctx g.key) (-1) s
    simp only [hfail, Bool.false_eq_true, if_false]
    rw [ifLive_of_live _ _ hh]
    unfold doneLocal
    exact ⟨hfr.2.2.2.1, hfr.2.2.1, hh⟩

/-- Witness for C8 with a failing transport: fail-fast records the error
and exits with status 1; continue-on-error records the error, stays
alive, and the failed gallery branch spawns nothing. -/
theorem C8_error_log_and_exit_modes_witness :
    ((addError ctxFailFast "boom" (initSt [])).errors = ["boom"] ∧
     (addError ctxFailFast "boom" (initSt [])).halted = some (.exited 1)) ∧
    ((addError ctxSloppyFail "boom" (initSt [])).errors = ["boom"] ∧
     (addError ctxSloppyFail "boom" (initSt [])).halted = none) ∧
    ((Gallery.Fetch ctxSloppyFail ⟨"aaaaaaaa"⟩ (initSt [])).spawned = [] ∧
     (Gallery.Fetch ctxSloppyFail ⟨"aaaaaaaa"⟩ (initSt [])).halted = none) := by
  refine ⟨?_, ?_, ?_⟩
  · have h := (C8_error_log_and_exit_modes ctxFailFast "boom" (initSt [])
      ⟨"aaaaaaaa"⟩ rfl).1 rfl
    simpa using h
  · have h := (C8_error_log_and_exit_modes ctxSloppyFail "boom" (initSt [])
      ⟨"aaaaaaaa"⟩ rfl).2.1 rfl
    simpa using h
  · have h := (C8_error_log_and_exit_modes ctxSloppyFail "boom" (initSt [])
      ⟨"aaaaaaaa"⟩ rfl).2.2 rfl (by decide)
    simpa using ⟨h.1, h.2.2⟩

/-! ## C5: media item fetch — panic on non-positive declared size -/

theorem append_right_ne (a b c : String) (h : b ≠ c) : a ++ b ≠ a ++ c := by
  intro he
  apply h
  have hd := congrArg String.data he
  simp only [String.data_append] at hd
  exact String.ext (List.append_cancel_left hd)

theorem mimeExt_ne_xml (m : String) : mimeExt m ≠ "xml" := by
  unfold mimeExt
  split_ifs <;> decide

theorem blobFn_ne_xmlFn (ctx : Ctx) (p : MediaSetItem) :
    MediaSetItem.BlobBackupFilename ctx p ≠ MediaSetItem.XmlBackupFilename ctx p := by
  unfold MediaSetItem.BlobBackupFilename MediaSetItem.XmlBackupFilename
  have h1 : ctx.flagDest ++ "/pic-" ++ p.key ++ ".xml"
      = ctx.flagDest ++ "/pic-" ++ p.key ++ "." ++ "xml" := by
    simp only [String.append_assoc]
    rfl
  rw [h1]
  exact append_right_ne _ _ _ (mimeExt_ne_xml p.file.mime)

theorem blobUrl_ne_xmlUrl (ctx : Ctx) (p : MediaSetItem) :
    MediaSetItem.BlobUrl ctx p ≠ MediaSetItem.XmlUrl ctx p := by
  unfold MediaSetItem.BlobUrl MediaSetItem.XmlUrl
  intro he
  have := congrArg String.length he
  simp [String.length_append] at this
  exact absurd this (by decide)

theorem events_count_netGet_doneLocal (s : St) (u : String) :
    (doneLocal s).events.count (.netGet u) = s.events.count (.netGet u) := by
  unfold doneLocal
  simp [List.count_append]

theorem events_count_netGet_ifLive_doneLocal (s : St) (u : String) :
    (ifLive doneLocal s).events.count (.netGet u) = s.events.count (.netGet u) := by
  unfold ifLive
  split_ifs
  · rfl
  · exact events_count_netGet_doneLocal s u

theorem fetchUrlToFile_netGet_other (ctx : Ctx) (url fn u : String) (esz : Int)
    (s : St) (h : u ≠ url) :
    (fetchUrlToFile ctx url fn esz s).2.events.count (.netGet u) =
      s.events.count (.netGet u) := by
  cases hc : skipCheck s.fs fn esz
  · rw [fetchUrlToFile_noskip ctx url fn esz s hc]
    simpa [h] using fetchUrlToFileBody_netGet_count ctx url fn u s
  · rw [fetchUrlToFile_skip ctx url fn esz s hc]

theorem fetchUrlToFile_netGet_self (ctx : Ctx) (url fn : String) (esz : Int)
    (s : St) :
    (fetchUrlToFile ctx url fn esz s).2.events.count (.netGet url) =
      s.events.count (.netGet url) +
        (if skipCheck s.fs fn esz = true then 0 else 1) := by
  cases hc : skipCheck s.fs fn esz
  · rw [fetchUrlToFile_noskip ctx url fn esz s hc]
    simpa using fetchUrlToFileBody_netGet_count ctx url fn url s
  · rw [fetchUrlToFile_skip ctx url fn esz s hc]
    simp

theorem halted_doneLocal (s : St) : (doneLocal s).halted = s.halted := rfl

theorem halted_ifLive_doneLocal (s : St) : (ifLive doneLocal s).halted = s.halted := by
  unfold ifLive
  split_ifs <;> rfl

theorem fs_doneLocal (s : St) : (doneLocal s).fs = s.fs := rfl

theorem fs_ifLive_doneLocal (s : St) : (ifLive doneLocal s).fs = s.fs := by
  unfold ifLive
  split_ifs <;> rfl

theorem MediaSetItem_Fetch_metadata_fail (ctx : Ctx) (p : MediaSetItem) (s : St)
    (hr : (fetchUrlToFile ctx (MediaSetItem.XmlUrl ctx p)
        (MediaSetItem.XmlBackupFilename ctx p) (-1) s).1 = false) :
    MediaSetItem.Fetch ctx p s =
      ifLive doneLocal (fetchUrlToFile ctx (MediaSetItem.XmlUrl ctx p)
        (MediaSetItem.XmlBackupFilename ctx p) (-1) s).2 := by
  unfold MediaSetItem.Fetch
  simp only [hr, Bool.not_false, if_pos]

theorem MediaSetItem_Fetch_panic (ctx : Ctx) (p : MediaSetItem) (s : St)
    (hr : (fetchUrlToFile ctx (MediaSetItem.XmlUrl ctx p)
        (MediaSetItem.XmlBackupFilename ctx p) (-1) s).1 = true)
    (hb : p.file.bytes ≤ 0) :
    MediaSetItem.Fetch ctx p s =
      { doneLocal (fetchUrlToFile ctx (MediaSetItem.XmlUrl ctx p)
          (MediaSetItem.XmlBackupFilename ctx p) (-1) s).2 with
        halted := some (.panicked "expected file to have some known file size") } := by
  unfold MediaSetItem.Fetch
  simp only [hr, Bool.not_true, Bool.false_eq_true, if_false, if_pos hb]

theorem MediaSetItem_Fetch_ok (ctx : Ctx) (p : MediaSetItem) (s : St)
    (hr : (fetchUrlToFile ctx (MediaSetItem.XmlUrl ctx p)
        (MediaSetItem.XmlBackupFilename ctx p) (-1) s).1 = true)
    (hb : 0 < p.file.bytes) :
    MediaSetItem.Fetch ctx p s =
      ifLive doneLocal
        (fetchUrlToFile ctx (MediaSetItem.BlobUrl ctx p)
          (MediaSetItem.BlobBackupFilename ctx p) p.file.bytes
          (fetchUrlToFile ctx (MediaSetItem.XmlUrl ctx p)
            (MediaSetItem.XmlBackupFilename ctx p) (-1) s).2).2 := by
  unfold MediaSetItem.Fetch
  simp only [hr, Bool.not_true, Bool.false_eq_true, if_false, if_neg (by omega : ¬ p.file.bytes ≤ 0)]

/-- C5: `MediaSetItem.Fetch` panics (fatal InvariantViolation, not a soft
recorded error) exactly when the metadata fetch succeeded and the parsed
metadata does not declare a strictly positive byte size; in that case the
binary payload file is untouched; when the metadata fetch fails it
returns without attempting the payload retrieval; and when the declared
size is strictly positive it fetches the payload passing exactly that
size as `expectedSize` (so a retrieval happens unless a file of exactly
that size is already present). -/
theorem C5_media_fetch_panics_without_size (ctx : Ctx) (p : MediaSetItem)
    (s : St) (hlive : s.halted = none) :
    ((MediaSetItem.Fetch ctx p s).halted =
        some (.panicked "expected file to have some known file size") ↔
      ((fetchUrlToFile ctx (MediaSetItem.XmlUrl ctx p)
          (MediaSetItem.XmlBackupFilename ctx p) (-1) s).1 = true ∧
        p.file.bytes ≤ 0)) ∧
    (p.file.bytes ≤ 0 →
      (MediaSetItem.Fetch ctx p s).fs.lookup (MediaSetItem.BlobBackupFilename ctx p) =
        s.fs.lookup (MediaSetItem.BlobBackupFilename ctx p)) ∧
    ((fetchUrlToFile ctx (MediaSetItem.XmlUrl ctx p)
        (MediaSetItem.XmlBackupFilename ctx p) (-1) s).1 = false →
      (MediaSetItem.Fetch ctx p s).events.count (.netGet (MediaSetItem.BlobUrl ctx p)) =
        s.events.count (.netGet (MediaSetItem.BlobUrl ctx p))) ∧
    ((fetchUrlToFile ctx (MediaSetItem.XmlUrl ctx p)
        (MediaSetItem.XmlBackupFilename ctx p) (-1) s).1 = true →
      0 < p.file.bytes →
      (MediaSetItem.Fetch ctx p s).events.count (.netGet (MediaSetItem.BlobUrl ctx p)) =
        s.events.count (.netGet (MediaSetItem.BlobUrl ctx p)) +
          (if skipCheck (fetchUrlToFile ctx (MediaSetItem.XmlUrl ctx p)
                (MediaSetItem.XmlBackupFilename ctx p) (-1) s).2.fs
              (MediaSetItem.BlobBackupFilename ctx p) p.file.bytes = true
           then 0 else 1)) := by
  have hx := fetchUrlToFile_halted ctx (MediaSetItem.XmlUrl ctx p)
    (MediaSetItem.XmlBackupFilename ctx p) (-1) s
  rw [hlive] at hx
  refine ⟨?_, ?_, ?_, ?_⟩
  · constructor
    · intro hp
      cases hr : (fetchUrlToFile ctx (MediaSetItem.XmlUrl ctx p)
          (MediaSetItem.XmlBackupFilename ctx p) (-1) s).1
      · rw [MediaSetItem_Fetch_metadata_fail ctx p s hr,
          halted_ifLive_doneLocal] at hp
        rcases hx with hx | hx <;> rw [hx] at hp <;> exact absurd hp (by simp)
      · by_cases hb : p.file.bytes ≤ 0
        · exact ⟨rfl, hb⟩
        · exfalso
          rw [MediaSetItem_Fetch_ok ctx p s hr (by omega),
            halted_ifLive_doneLocal] at hp
          have hbx := fetchUrlToFile_halted ctx (MediaSetItem.BlobUrl ctx p)
            (MediaSetItem.BlobBackupFilename ctx p) p.file.bytes
            (fetchUrlToFile ctx (MediaSetItem.XmlUrl ctx p)
              (MediaSetItem.XmlBackupFilename ctx p) (-1) s).2
          rcases hbx with hbx | hbx <;> rw [hbx] at hp
          · rcases hx with hx | hx <;> rw [hx] at hp <;> exact absurd hp (by simp)
          · exact absurd hp (by simp)
    · rintro ⟨hr, hb⟩
      rw [MediaSetItem_Fetch_panic ctx p s hr hb]
  · intro hb
    cases hr : (fetchUrlToFile ctx (MediaSetItem.XmlUrl ctx p)
        (MediaSetItem.XmlBackupFilename ctx p) (-1) s).1
    · rw [MediaSetItem_Fetch_metadata_fail ctx p s hr, fs_ifLive_doneLocal]
      exact fetchUrlToFile_fs_other ctx _ _ _ (-1) s (blobFn_ne_xmlFn ctx p)
    · rw [MediaSetItem_Fetch_panic ctx p s hr hb]
      exact fetchUrlToFile_fs_other ctx _ _ _ (-1) s (blobFn_ne_xmlFn ctx p)
  · intro hr
    rw [MediaSetItem_Fetch_metadata_fail ctx p s hr,
      events_count_netGet_ifLive_doneLocal]
    exact fetchUrlToFile_netGet_other ctx _ _ _ (-1) s (blobUrl_ne_xmlUrl ctx p)
  · intro hr hb
    rw [MediaSetItem_Fetch_ok ctx p s hr hb,
      events_count_netGet_ifLive_doneLocal,
      fetchUrlToFile_netGet_self,
      fetchUrlToFile_netGet_other ctx _ _ _ (-1) s (blobUrl_ne_xmlUrl ctx p)]

/-- Witness for C5: with a transport that always succeeds, an item whose
gallery metadata declared size 0 panics and writes no payload file, while
the same item with declared size 3 fetches the payload. -/
theorem C5_media_fetch_panics_without_size_witness :
    (MediaSetItem.Fetch ctxAbc picItemZero (initSt [])).halted =
      some (.panicked "expected file to have some known file size") ∧
    (MediaSetItem.Fetch ctxAbc picItemZero (initSt [])).fs.lookup
      (MediaSetItem.BlobBackupFilename ctxAbc picItemZero) = none ∧
    (MediaSetItem.Fetch ctxAbc picItemA (initSt [])).events.count
      (.netGet (MediaSetItem.BlobUrl ctxAbc picItemA)) = 1 := by
  refine ⟨?_, ?_, ?_⟩
  · exact (C5_media_fetch_panics_without_size ctxAbc picItemZero (initSt [])
      rfl).1.mpr ⟨by decide, by decide⟩
  · have h := (C5_media_fetch_panics_without_size ctxAbc picItemZero (initSt [])
      rfl).2.1 (by decide)
    rw [h]; decide
  · have h := (C5_media_fetch_panics_without_size ctxAbc picItemA (initSt [])
      rfl).2.2.2 (by decide) (by decide)
    rw [h]; decide

/-! ## C1: check-then-insert dedup registers and spawns exactly once -/

theorem spawnLocal_halted (t : CrawlTask) (s : St) :
    (spawnLocal t s).halted = s.halted := rfl

theorem noteGallery_known (ctx : Ctx) (u k : String) (s : St)
    (hlive : s.halted = none) (hu : findKey u galleryPat = some k)
    (hk : (s.galleryMap.lookup k).isSome) :
    noteGallery ctx u s = s := by
  unfold noteGallery
  simp [hlive, hu, hk]

theorem noteGallery_new (ctx : Ctx) (u k : String) (s : St)
    (hlive : s.halted = none) (hu : findKey u galleryPat = some k)
    (hk : s.galleryMap.lookup k = none) :
    noteGallery ctx u s =
      spawnLocal (.galleryFetch k)
        { s with galleryMap := (k, ⟨k⟩) :: s.galleryMap } := by
  unfold noteGallery
  simp [hlive, hu, hk]

theorem foldl_noteGallery_same_key (ctx : Ctx) (k : String) (us : List String)
    (s : St) (hlive : s.halted = none)
    (hk : (s.galleryMap.lookup k).isSome)
    (hus : ∀ u ∈ us, findKey u galleryPat = some k) :
    us.foldl (fun t u => noteGallery ctx u t) s = s := by
  induction us with
  | nil => rfl
  | cons u us ih =>
    simp only [List.foldl_cons]
    rw [noteGallery_known ctx u k s hlive (hus u (by simp)) hk]
    exact ih fun v hv => hus v (by simp [hv])

theorem notePhoto_known (pic : MediaSetItem) (s : St)
    (hlive : s.halted = none) (hk : (s.picMap.lookup pic.key).isSome) :
    notePhoto pic s = s := by
  unfold notePhoto
  simp [hlive, hk]

theorem notePhoto_new (pic : MediaSetItem) (s : St)
    (hlive : s.halted = none) (hk : s.picMap.lookup pic.key = none) :
    notePhoto pic s =
      spawnLocal (.picFetch pic) { s with picMap := (pic.key, pic) :: s.picMap } := by
  unfold notePhoto
  simp [hlive, hk]

theorem foldl_notePhoto_same_key (k : String) (ps : List MediaSetItem)
    (s : St) (hlive : s.halted = none)
    (hk : (s.picMap.lookup k).isSome)
    (hps : ∀ q ∈ ps, q.key = k) :
    ps.foldl (fun t q => notePhoto q t) s = s := by
  induction ps with
  | nil => rfl
  | cons q ps ih =>
    simp only [List.foldl_cons]
    rw [notePhoto_known q s hlive (by rw [hps q (by simp)]; exact hk)]
    exact ih fun v hv => hps v (by simp [hv])

/-- C1: for any sequence of discovery events resolving to the same
identifier (bare 8-character key or any URL spelling resolving to it),
starting from a state in which the identifier is unknown: the first event
inserts exactly one record and spawns exactly one fetcher, and every
later event of the sequence leaves the state entirely unchanged — for
galleries (`noteGallery`) and media items (`notePhoto`) alike. -/
theorem C1_dedup_registers_once (ctx : Ctx) (s : St) (k : String)
    (u0 : String) (us : List String) (p0 : MediaSetItem) (ps : List MediaSetItem)
    (hlive : s.halted = none)
    (hgnew : s.galleryMap.lookup k = none)
    (hpnew : s.picMap.lookup p0.key = none)
    (hu0 : findKey u0 galleryPat = some k)
    (hus : ∀ u ∈ us, findKey u galleryPat = some k)
    (hps : ∀ q ∈ ps, q.key = p0.key) :
    ((noteGallery ctx u0 s).galleryMap = (k, ⟨k⟩) :: s.galleryMap ∧
     (noteGallery ctx u0 s).spawned = s.spawned ++ [.galleryFetch k] ∧
     (noteGallery ctx u0 s).pending = s.pending ++ [.galleryFetch k] ∧
     us.foldl (fun t u => noteGallery ctx u t) (noteGallery ctx u0 s) =
       noteGallery ctx u0 s) ∧
    ((notePhoto p0 s).picMap = (p0.key, p0) :: s.picMap ∧
     (notePhoto p0 s).spawned = s.spawned ++ [.picFetch p0] ∧
     (notePhoto p0 s).pending = s.pending ++ [.picFetch p0] ∧
     ps.foldl (fun t q => notePhoto q t) (notePhoto p0 s) = notePhoto p0 s) := by
  have hg := noteGallery_new ctx u0 k s hlive hu0 hgnew
  have hp := notePhoto_new p0 s hlive hpnew
  constructor
  · refine ⟨by rw [hg]; rfl, by rw [hg]; rfl, by rw [hg]; rfl, ?_⟩
    refine foldl_noteGallery_same_key ctx k us _ (by rw [hg]; exact hlive) ?_ hus
    rw [hg]
    show (((k, (⟨k⟩ : Gallery)) :: s.galleryMap).lookup k).isSome
    simp [List.lookup]
  · refine ⟨by rw [hp]; rfl, by rw [hp]; rfl, by rw [hp]; rfl, ?_⟩
    refine foldl_notePhoto_same_key p0.key ps _ (by rw [hp]; exact hlive) ?_ hps
    rw [hp]
    show (((p0.key, p0) :: s.picMap).lookup p0.key).isSome
    simp [List.lookup]

/-- Witness for C1: the key aaaaaaaa discovered first as a bare key and
then through a URL spelling inserts one Gallery record and spawns one
fetcher; the item ccccdddd discovered twice through two distinct parsed
records inserts and spawns once. -/
theorem C1_dedup_registers_once_witness :
    (["http://x/gallery/aaaaaaaa"].foldl
        (fun t u => noteGallery ctxAbc u t)
        (noteGallery ctxAbc "aaaaaaaa" (initSt []))).galleryMap =
      [("aaaaaaaa", ⟨"aaaaaaaa"⟩)] ∧
    (["http://x/gallery/aaaaaaaa"].foldl
        (fun t u => noteGallery ctxAbc u t)
        (noteGallery ctxAbc "aaaaaaaa" (initSt []))).spawned =
      [.galleryFetch "aaaaaaaa"] ∧
    ([picItemA'].foldl (fun t q => notePhoto q t)
        (notePhoto picItemA (initSt []))).picMap =
      [("ccccdddd", picItemA)] ∧
    ([picItemA'].foldl (fun t q => notePhoto q t)
        (notePhoto picItemA (initSt []))).spawned =
      [.picFetch picItemA] := by
  have h := C1_dedup_registers_once ctxAbc (initSt []) "aaaaaaaa" "aaaaaaaa"
    ["http://x/gallery/aaaaaaaa"] picItemA [picItemA'] rfl rfl rfl
    (by decide) (by decide) (by decide)
  refine ⟨?_, ?_, ?_, ?_⟩
  · rw [h.1.2.2.2, h.1.1]; rfl
  · rw [h.1.2.2.2, h.1.2.1]; rfl
  · rw [h.2.2.2.2, h.2.1]; rfl
  · rw [h.2.2.2.2, h.2.2.1]; rfl

/-! ## C6: frontier termination on the first stagnant page -/

theorem noteGallery_pagesFetched (ctx : Ctx) (u : String) (s : St) :
    (noteGallery ctx u s).pagesFetched = s.pagesFetched := by
  unfold noteGallery
  split_ifs with h
  · rfl
  · cases findKey u galleryPat
    · rfl
    · simp only [spawnLocal, NewLocalOperation]
      split_ifs <;> rfl

theorem foldl_pagesFetched_of {α : Type} (f : St → α → St)
    (hf : ∀ s a, (f s a).pagesFetched = s.pagesFetched) :
    ∀ (l : List α) (s : St), (l.foldl f s).pagesFetched = s.pagesFetched := by
  intro l
  induction l with
  | nil => intro s; rfl
  | cons a l ih => intro s; rw [List.foldl_cons, ih, hf]

theorem fetchGalleryPage_pagesFetched (ctx : Ctx) (page : Nat) (s : St) :
    (fetchGalleryPage ctx page s).pagesFetched = s.pagesFetched ++ [page] := by
  unfold fetchGalleryPage
  cases ctx.net (pageUrl ctx page) <;>
    simp [foldl_pagesFetched_of _ (fun s a => noteGallery_pagesFetched ctx _ s)]

theorem pagesRun_pagesFetched (ctx : Ctx) (j : Nat) (s0 : St) :
    (pagesRun ctx j s0).pagesFetched =
      s0.pagesFetched ++ (List.range j).map (· + 1) := by
  induction j with
  | zero => simp [pagesRun]
  | succ j ih =>
    show (fetchGalleryPage ctx (j + 1) (pagesRun ctx j s0)).pagesFetched = _
    rw [fetchGalleryPage_pagesFetched, ih, List.range_succ]
    simp

theorem frontierLoop_reaches (ctx : Ctx) (s0 : St) (nstop : Nat)
    (hlive : ∀ j, j ≤ nstop → (pagesRun ctx j s0).halted = none)
    (hstop : knownGalleries (pagesRun ctx nstop s0) =
      knownGalleries (pagesRun ctx (nstop - 1) s0))
    (hnovel : ∀ j, j + 1 < nstop →
      knownGalleries (pagesRun ctx (j + 1) s0) ≠ knownGalleries (pagesRun ctx j s0)) :
    ∀ fuel k, k < nstop → nstop ≤ k + fuel →
      frontierLoop ctx fuel (k + 1) (pagesRun ctx k s0) = pagesRun ctx nstop s0 := by
  intro fuel
  induction fuel with
  | zero => intro k hk hk2; omega
  | succ fuel ih =>
    intro k hk hk2
    show frontierLoop ctx (fuel + 1) (k + 1) (pagesRun ctx k s0) = _
    unfold frontierLoop
    rw [if_neg (by rw [hlive k (by omega)]; simp)]
    have hstep : fetchGalleryPage ctx (k + 1) (pagesRun ctx k s0) =
        pagesRun ctx (k + 1) s0 := rfl
    rw [hstep]
    rw [if_neg (by rw [hlive (k + 1) (by omega)]; simp)]
    by_cases he : knownGalleries (pagesRun ctx (k + 1) s0) =
        knownGalleries (pagesRun ctx k s0)
    · rw [if_pos he]
      have : k + 1 = nstop := by
        by_contra hne
        exact (hnovel k (by omega)) he
      rw [this]
    · rw [if_neg he]
      have hk1 : k + 1 < nstop := by
        by_contra hge
        have : k + 1 = nstop := by omega
        subst this
        simp only [Nat.add_sub_cancel] at hstop
        exact he hstop
      exact ih (k + 1) hk1 (by omega)

/-- C6: the frontier fetches listing pages sequentially from page 1 and
stops at the first page whose before/after known-gallery count comparison
shows zero newly discovered galleries; page `N + 1` is never fetched
after such a page `N` (the pages fetched are exactly `1 .. N`).  In
particular, with two pages where page 1 yields `{aaaaaaaa, bbbbbbbb}` and
page 2 yields only the known `aaaaaaaa`, exactly 2 pages are fetched and
exactly 2 galleries registered. -/
theorem C6_frontier_stops_on_first_stagnant_page (ctx : Ctx) (s0 : St)
    (fuel nstop : Nat) (hN : 1 ≤ nstop) (hfuel : nstop ≤ fuel)
    (hlive : ∀ j, j ≤ nstop → (pagesRun ctx j s0).halted = none)
    (hstop : knownGalleries (pagesRun ctx nstop s0) =
      knownGalleries (pagesRun ctx (nstop - 1) s0))
    (hnovel : ∀ j, j + 1 < nstop →
      knownGalleries (pagesRun ctx (j + 1) s0) ≠ knownGalleries (pagesRun ctx j s0)) :
    frontierLoop ctx fuel 1 s0 = pagesRun ctx nstop s0 ∧
    (frontierLoop ctx fuel 1 s0).pagesFetched =
      s0.pagesFetched ++ (List.range nstop).map (· + 1) ∧
    ((frontierLoop ctxTwoPages 10 1 (initSt [])).pagesFetched = [1, 2] ∧
     knownGalleries (frontierLoop ctxTwoPages 10 1 (initSt [])) = 2) := by
  have h0 : frontierLoop ctx fuel 1 s0 = pagesRun ctx nstop s0 :=
    frontierLoop_reaches ctx s0 nstop hlive hstop hnovel fuel 0 (by omega) (by omega)
  refine ⟨h0, ?_, by decide, by decide⟩
  rw [h0, pagesRun_pagesFetched]

/-- Witness for C6: with the two concrete listing pages, the loop stops
after page 2 and fetched exactly pages 1 and 2. -/
theorem C6_frontier_stops_on_first_stagnant_page_witness :
    frontierLoop ctxTwoPages 10 1 (initSt []) = pagesRun ctxTwoPages 2 (initSt []) ∧
    (frontierLoop ctxTwoPages 10 1 (initSt [])).pagesFetched = [1, 2] := by
  have h := C6_frontier_stops_on_first_stagnant_page ctxTwoPages (initSt []) 10 2
    (by omega) (by omega)
    (by intro j hj; interval_cases j <;> decide)
    (by decide)
    (by intro j hj; have hj0 : j = 0 := by omega
        subst hj0; decide)
  exact ⟨h.1, h.2.2.1⟩

/-! ## The in-flight counter invariant (C3, C4) -/

theorem noteGallery_slack (ctx : Ctx) (u : String) (s : St) :
    (noteGallery ctx u s).opsInFlight - ((noteGallery ctx u s).pending.length : Int) =
      s.opsInFlight - s.pending.length := by
  unfold noteGallery
  split_ifs with h
  · rfl
  · cases findKey u galleryPat
    · rfl
    · simp only [spawnLocal, NewLocalOperation]
      split_ifs <;> simp <;> omega

theorem notePhoto_slack (pic : MediaSetItem) (s : St) :
    (notePhoto pic s).opsInFlight - ((notePhoto pic s).pending.length : Int) =
      s.opsInFlight - s.pending.length := by
  unfold notePhoto
  split_ifs <;>
    first
      | rfl
      | (simp only [spawnLocal, NewLocalOperation]; simp)

theorem notePhotoFromItem_slack (item : MediaSetItem) (s : St) :
    (notePhotoFromItem item s).opsInFlight -
        ((notePhotoFromItem item s).pending.length : Int) =
      s.opsInFlight - s.pending.length := by
  unfold notePhotoFromItem
  split_ifs with h
  · rfl
  · cases findKey item.infoURL picPat
    · rfl
    · exact notePhoto_slack _ s

theorem foldl_slack_of {α : Type} (f : St → α → St)
    (hf : ∀ s a, (f s a).opsInFlight - ((f s a).pending.length : Int) =
      s.opsInFlight - s.pending.length) :
    ∀ (l : List α) (s : St),
      (l.foldl f s).opsInFlight - ((l.foldl f s).pending.length : Int) =
        s.opsInFlight - s.pending.length := by
  intro l
  induction l with
  | nil => intro s; rfl
  | cons a l ih => intro s; rw [List.foldl_cons, ih, hf]

theorem fetchUrlToFile_live_slack (ctx : Ctx) (url fn : String) (esz : Int)
    (s : St) (h : (fetchUrlToFile ctx url fn esz s).2.halted = none) :
    (fetchUrlToFile ctx url fn esz s).2.opsInFlight -
        (((fetchUrlToFile ctx url fn esz s).2.pending.length : Int)) =
      s.opsInFlight - s.pending.length := by
  rw [fetchUrlToFile_live_ops ctx url fn esz s h,
    (fetchUrlToFile_frame ctx url fn esz s).2.2.1]

theorem doneLocal_slack (s : St) :
    (doneLocal s).opsInFlight - ((doneLocal s).pending.length : Int) =
      s.opsInFlight - s.pending.length - 1 := by
  unfold doneLocal
  simp
  omega

theorem spawnLocal_pending (t : CrawlTask) (s : St) :
    (spawnLocal t s).pending = s.pending ++ [t] := rfl

theorem spawnLocal_ops (t : CrawlTask) (s : St) :
    (spawnLocal t s).opsInFlight = s.opsInFlight + 1 := rfl

theorem fetchPhotosInGallery_live_slack (ctx : Ctx) (fn : String) (s : St)
    (h : (fetchPhotosInGallery ctx fn s).halted = none) :
    (fetchPhotosInGallery ctx fn s).opsInFlight -
        ((fetchPhotosInGallery ctx fn s).pending.length : Int) =
      s.opsInFlight - s.pending.length - 1 := by
  revert h
  unfold fetchPhotosInGallery
  cases hl : s.fs.lookup fn with
  | none =>
    dsimp only
    intro h
    rw [halted_ifLive_doneLocal] at h
    rw [ifLive_of_live _ _ h, doneLocal_slack, addError_eq]
  | some content =>
    dsimp only
    cases hp : ctx.parse content with
    | none =>
      dsimp only
      intro h
      rw [halted_ifLive_doneLocal] at h
      rw [ifLive_of_live _ _ h, doneLocal_slack, addError_eq]
    | some ms =>
      dsimp only
      intro h
      rw [halted_ifLive_doneLocal] at h
      rw [ifLive_of_live _ _ h, doneLocal_slack]
      rw [foldl_slack_of _ (fun s q => notePhotoFromItem_slack q s),
        foldl_slack_of _ (fun s u => noteGallery_slack ctx u s),
        foldl_slack_of _ (fun s u => noteGallery_slack ctx u s)]

theorem halted_ifLive_of (f : St → St) (hf : ∀ t : St, (f t).halted = t.halted)
    (s : St) : (ifLive f s).halted = s.halted := by
  unfold ifLive
  split_ifs <;> simp [hf]

theorem Gallery_Fetch_live_slack (ctx : Ctx) (g : Gallery) (s : St)
    (h : (Gallery.Fetch ctx g s).halted = none) :
    (Gallery.Fetch ctx g s).opsInFlight -
        ((Gallery.Fetch ctx g s).pending.length : Int) =
      s.opsInFlight - s.pending.length - 1 := by
  revert h
  unfold Gallery.Fetch
  dsimp only
  cases hr : (fetchUrlToFile ctx (Gallery.XmlUrl ctx g)
      (galleryXmlFilename ctx g.key) (-1) s).1 with
  | false =>
    simp only [Bool.false_eq_true, if_false]
    intro h
    rw [halted_ifLive_doneLocal] at h
    rw [ifLive_of_live _ _ h, doneLocal_slack,
      fetchUrlToFile_live_slack ctx _ _ _ s h]
  | true =>
    simp only [if_true]
    intro h
    rw [halted_ifLive_doneLocal] at h
    have h2 : (fetchUrlToFile ctx (Gallery.XmlUrl ctx g)
        (galleryXmlFilename ctx g.key) (-1) s).2.halted = none := by
      rwa [halted_ifLive_of _ (spawnLocal_halted _) _] at h
    rw [ifLive_of_live _ _ h, doneLocal_slack, ifLive_of_live _ _ h2,
      spawnLocal_pending, spawnLocal_ops]
    have hsl := fetchUrlToFile_live_slack ctx (Gallery.XmlUrl ctx g)
      (galleryXmlFilename ctx g.key) (-1) s h2
    simp only [List.length_append, List.length_cons, List.length_nil]
    push_cast
    omega

theorem MediaSetItem_Fetch_live_slack (ctx : Ctx) (p : MediaSetItem) (s : St)
    (h : (MediaSetItem.Fetch ctx p s).halted = none) :
    (MediaSetItem.Fetch ctx p s).opsInFlight -
        ((MediaSetItem.Fetch ctx p s).pending.length : Int) =
      s.opsInFlight - s.pending.length - 1 := by
  cases hr : (fetchUrlToFile ctx (MediaSetItem.XmlUrl ctx p)
      (MediaSetItem.XmlBackupFilename ctx p) (-1) s).1 with
  | false =>
    rw [MediaSetItem_Fetch_metadata_fail ctx p s hr] at h ⊢
    rw [halted_ifLive_doneLocal] at h
    rw [ifLive_of_live _ _ h, doneLocal_slack,
      fetchUrlToFile_live_slack ctx _ _ _ s h]
  | true =>
    by_cases hb : p.file.bytes ≤ 0
    · rw [MediaSetItem_Fetch_panic ctx p s hr hb] at h
      exact absurd h (by simp)
    · rw [MediaSetItem_Fetch_ok ctx p s hr (by omega)] at h ⊢
      rw [halted_ifLive_doneLocal] at h
      have h2 : (fetchUrlToFile ctx (MediaSetItem.XmlUrl ctx p)
          (MediaSetItem.XmlBackupFilename ctx p) (-1) s).2.halted = none := by
        rcases fetchUrlToFile_halted ctx (MediaSetItem.BlobUrl ctx p)
          (MediaSetItem.BlobBackupFilename ctx p) p.file.bytes
          (fetchUrlToFile ctx (MediaSetItem.XmlUrl ctx p)
            (MediaSetItem.XmlBackupFilename ctx p) (-1) s).2 with hx | hx
        · rw [h] at hx; exact hx.symm
        · rw [h] at hx; exact absurd hx.symm (by simp)
      rw [ifLive_of_live _ _ h, doneLocal_slack,
        fetchUrlToFile_live_slack ctx _ _ _ _ h,
        fetchUrlToFile_live_slack ctx _ _ _ s h2]

theorem runTask_live_slack (ctx : Ctx) (t : CrawlTask) (s : St)
    (h : (runTask ctx t s).halted = none) :
    (runTask ctx t s).opsInFlight - ((runTask ctx t s).pending.length : Int) =
      s.opsInFlight - s.pending.length - 1 := by
  cases t with
  | galleryFetch k => exact Gallery_Fetch_live_slack ctx ⟨k⟩ s h
  | photosInGallery fn => exact fetchPhotosInGallery_live_slack ctx fn s h
  | picFetch item => exact MediaSetItem_Fetch_live_slack ctx item s h

theorem rotZ_length (i : Nat) (l : List CrawlTask) :
    (rotZ i l).length = l.length := by
  unfold rotZ
  simp [List.length_drop, List.length_take]
  omega

theorem step_inv (ctx : Ctx) (i : Nat) (s : St) (hs : OpsInv s) :
    OpsInv (step ctx i s) := by
  unfold step
  split_ifs with hh
  · exact hs
  · cases hr : rotZ i s.pending with
    | nil => exact hs
    | cons t rest =>
      dsimp only
      intro hlive
      have hlen : s.pending.length = rest.length + 1 := by
        have hl := rotZ_length i s.pending
        rw [hr] at hl
        simpa using hl.symm
      have hslack := runTask_live_slack ctx t
        { s with pending := rest, execHist := s.execHist ++ [t] } hlive
      have hsl : s.opsInFlight = (s.pending.length : Int) :=
        hs (Option.not_isSome_iff_eq_none.mp hh)
      simp only at hslack
      omega

theorem seqRun_inv (ctx : Ctx) (ch : Nat → Nat) (n : Nat) (s : St)
    (hs : OpsInv s) : OpsInv (seqRun ctx ch n s) := by
  induction n generalizing ch s with
  | zero => exact hs
  | succ n ih => exact ih _ _ (step_inv ctx (ch 0) s hs)

theorem noteGallery_of_halted (ctx : Ctx) (u : String) (s : St)
    (h : s.halted.isSome) : noteGallery ctx u s = s := by
  unfold noteGallery
  simp [h]

theorem foldl_of_halted {α : Type} (f : St → α → St)
    (hf : ∀ s a, s.halted.isSome → f s a = s) :
    ∀ (l : List α) (s : St), s.halted.isSome → l.foldl f s = s := by
  intro l
  induction l with
  | nil => intro s _; rfl
  | cons a l ih => intro s h; rw [List.foldl_cons, hf s a h, ih s h]

theorem fetchGalleryPage_slack (ctx : Ctx) (page : Nat) (s : St) :
    (fetchGalleryPage ctx page s).opsInFlight -
        ((fetchGalleryPage ctx page s).pending.length : Int) =
      s.opsInFlight - s.pending.length := by
  unfold fetchGalleryPage
  cases ctx.net (pageUrl ctx page)
  · rfl
  · rfl
  · exact foldl_slack_of _ (fun t ks => noteGallery_slack ctx (String.mk ks) t) _ _

theorem fetchGalleryPage_live_inward (ctx : Ctx) (page : Nat) (s : St)
    (h : (fetchGalleryPage ctx page s).halted = none) : s.halted = none := by
  revert h
  unfold fetchGalleryPage
  cases ctx.net (pageUrl ctx page)
  · intro h; exact absurd h (by simp)
  · intro h; exact absurd h (by simp)
  · intro h
    dsimp only at h
    by_contra hx
    have hs : s.halted.isSome := by
      cases hq : s.halted
      · exact absurd hq hx
      · rfl
    rw [foldl_of_halted (fun t ks => noteGallery ctx (String.mk ks) t)
      (fun t ks hk => noteGallery_of_halted ctx _ t hk) _ _
      (by simpa using hs)] at h
    simp only at h
    exact hx h

theorem fetchGalleryPage_inv (ctx : Ctx) (page : Nat) (s : St) (hs : OpsInv s) :
    OpsInv (fetchGalleryPage ctx page s) := by
  intro hlive
  have hsl := fetchGalleryPage_slack ctx page s
  have hl := fetchGalleryPage_live_inward ctx page s hlive
  have := hs hl
  omega

theorem frontierLoop_inv (ctx : Ctx) (fuel page : Nat) (s : St) (hs : OpsInv s) :
    OpsInv (frontierLoop ctx fuel page s) := by
  induction fuel generalizing page s with
  | zero => exact hs
  | succ fuel ih =>
    unfold frontierLoop
    dsimp only
    split_ifs with h1 h2 h3
    · exact hs
    · exact fetchGalleryPage_inv ctx page s hs
    · exact fetchGalleryPage_inv ctx page s hs
    · exact ih _ _ (fetchGalleryPage_inv ctx page s hs)

theorem fetchUrlToFileBody_balance (ctx : Ctx) (url fn : String) (s : St)
    (h : (fetchUrlToFileBody ctx url fn s).2.halted = none) :
    (fetchUrlToFileBody ctx url fn s).2.events.count .acquireNet =
      s.events.count .acquireNet + 1 ∧
    (fetchUrlToFileBody ctx url fn s).2.events.count .releaseNet =
      s.events.count .releaseNet + 1 ∧
    (fetchUrlToFileBody ctx url fn s).2.events.count .incrOps =
      s.events.count .incrOps + 1 ∧
    (fetchUrlToFileBody ctx url fn s).2.events.count .decrOps =
      s.events.count .decrOps + 1 := by
  revert h
  unfold fetchUrlToFileBody
  cases ctx.net url <;>
    simp only [ifLive, addError_eq, doneNetwork, NewNetworkOperation] <;>
    split_ifs <;> intro h <;> simp_all [List.count_append]

theorem fetchUrlToFile_balance (ctx : Ctx) (url fn : String) (esz : Int) (s : St)
    (h : (fetchUrlToFile ctx url fn esz s).2.halted = none) :
    ∃ m, m ≤ 1 ∧
      (fetchUrlToFile ctx url fn esz s).2.events.count .acquireNet =
        s.events.count .acquireNet + m ∧
      (fetchUrlToFile ctx url fn esz s).2.events.count .releaseNet =
        s.events.count .releaseNet + m ∧
      (fetchUrlToFile ctx url fn esz s).2.events.count .incrOps =
        s.events.count .incrOps + m ∧
      (fetchUrlToFile ctx url fn esz s).2.events.count .decrOps =
        s.events.count .decrOps + m := by
  cases hc : skipCheck s.fs fn esz
  · rw [fetchUrlToFile_noskip ctx url fn esz s hc] at h ⊢
    exact ⟨1, by omega, fetchUrlToFileBody_balance ctx url fn s h⟩
  · rw [fetchUrlToFile_skip ctx url fn esz s hc]
    exact ⟨0, by omega, by simp⟩

theorem rotZ_nil (i : Nat) : rotZ i [] = [] := by
  unfold rotZ
  simp

/-- C3: every Operation handle is released exactly once on every live
exit path — a live run of the fetch primitive adds exactly one matched
acquire/release (and counter increment/decrement) pair when it fetched,
and zero when it skipped; every goroutine body releases exactly the one
local handle it owns (net counter change −1, with each handle it admits
owned by a new queued goroutine); therefore the counter stays balanced
and when the drain loop's condition is reached (queue empty, process
alive) `OperationsInFlight` is 0. -/
theorem C3_operation_release_balance (ctx : Ctx) (url fn : String) (esz : Int)
    (s : St) (t : CrawlTask) (s' : St) (fuel n : Nat)
    (fs0 : List (String × String)) (ch : Nat → Nat)
    (hfetch : (fetchUrlToFile ctx url fn esz s).2.halted = none)
    (htask : (runTask ctx t s').halted = none)
    (hend : (crawlRun ctx fuel fs0 ch n).halted = none)
    (hdrain : (crawlRun ctx fuel fs0 ch n).pending = []) :
    (∃ m, m ≤ 1 ∧
      (fetchUrlToFile ctx url fn esz s).2.events.count .acquireNet =
        s.events.count .acquireNet + m ∧
      (fetchUrlToFile ctx url fn esz s).2.events.count .releaseNet =
        s.events.count .releaseNet + m ∧
      (fetchUrlToFile ctx url fn esz s).2.events.count .incrOps =
        s.events.count .incrOps + m ∧
      (fetchUrlToFile ctx url fn esz s).2.events.count .decrOps =
        s.events.count .decrOps + m) ∧
    ((runTask ctx t s').opsInFlight - ((runTask ctx t s').pending.length : Int) =
      s'.opsInFlight - s'.pending.length - 1) ∧
    OperationsInFlight (crawlRun ctx fuel fs0 ch n) = 0 := by
  refine ⟨fetchUrlToFile_balance ctx url fn esz s hfetch,
    runTask_live_slack ctx t s' htask, ?_⟩
  have hinv : OpsInv (crawlRun ctx fuel fs0 ch n) := by
    apply seqRun_inv
    apply frontierLoop_inv
    intro _
    rfl
  have := hinv hend
  rw [hdrain] at this
  simpa [OperationsInFlight] using this

/-- Witness for C3: the always-succeeding transport on the empty frontier
drains immediately with a balanced counter; a successful fetch records
one acquire/release pair; a gallery task's body releases its handle. -/
theorem C3_operation_release_balance_witness :
    (∃ m, m ≤ 1 ∧
      (fetchUrlToFile ctxAbc "u" "f" (-1) (initSt [])).2.events.count .acquireNet =
        (initSt []).events.count .acquireNet + m ∧
      (fetchUrlToFile ctxAbc "u" "f" (-1) (initSt [])).2.events.count .releaseNet =
        (initSt []).events.count .releaseNet + m ∧
      (fetchUrlToFile ctxAbc "u" "f" (-1) (initSt [])).2.events.count .incrOps =
        (initSt []).events.count .incrOps + m ∧
      (fetchUrlToFile ctxAbc "u" "f" (-1) (initSt [])).2.events.count .decrOps =
        (initSt []).events.count .decrOps + m) ∧
    ((runTask ctxAbc (.galleryFetch "aaaaaaaa") (initSt [])).opsInFlight -
      (((runTask ctxAbc (.galleryFetch "aaaaaaaa") (initSt [])).pending.length : Int)) =
      (initSt []).opsInFlight - (initSt []).pending.length - 1) ∧
    OperationsInFlight (crawlRun ctxAbc 5 [] (fun _ => 0) 0) = 0 := by
  exact C3_operation_release_balance ctxAbc "u" "f" (-1) (initSt [])
    (.galleryFetch "aaaaaaaa") (initSt []) 5 0 [] (fun _ => 0)
    (by decide) (by decide) (by decide) (by decide)

/-- C4: both admission functions atomically increment the global counter
strictly before blocking on their pool's gate (the increment event
precedes the acquire event in the trace each emits); consequently every
pending or running operation is counted, and in any state reached after
the frontier loop has exited — any number of scheduler steps later, as
sampled by the drain loop's polls — a zero reading of
`OperationsInFlight` implies the task queue is empty and a further
scheduler step can spawn no new work (it is the identity). -/
theorem C4_increment_before_gate (ctx : Ctx) (s : St) (fuel n i : Nat)
    (fs0 : List (String × String)) (ch : Nat → Nat)
    (hlive : (crawlRun ctx fuel fs0 ch n).halted = none)
    (hzero : OperationsInFlight (crawlRun ctx fuel fs0 ch n) = 0) :
    ((NewNetworkOperation s).events = s.events ++ [.incrOps, .acquireNet] ∧
     (NewLocalOperation s).events = s.events ++ [.incrOps, .acquireLocal]) ∧
    (crawlRun ctx fuel fs0 ch n).pending = [] ∧
    step ctx i (crawlRun ctx fuel fs0 ch n) = crawlRun ctx fuel fs0 ch n := by
  have hinv : OpsInv (crawlRun ctx fuel fs0 ch n) :=
    seqRun_inv ctx ch n _ (frontierLoop_inv ctx fuel 1 (initSt fs0) (fun _ => rfl))
  have hops := hinv hlive
  have hzero' : (crawlRun ctx fuel fs0 ch n).opsInFlight = 0 := hzero
  rw [hzero'] at hops
  have hpend : (crawlRun ctx fuel fs0 ch n).pending = [] := by
    have hc : ((crawlRun ctx fuel fs0 ch n).pending.length : Int) = 0 := hops.symm
    have hn : (crawlRun ctx fuel fs0 ch n).pending.length = 0 := by
      exact_mod_cast hc
    exact List.length_eq_zero.mp hn
  refine ⟨⟨rfl, rfl⟩, hpend, ?_⟩
  unfold step
  rw [if_neg (by rw [hlive]; simp), hpend, rotZ_nil]

/-- Witness for C4 on the two-gallery cycle: after the frontier seeded
gallery aaaaaaaa and six scheduler steps ran the spawned fetchers (both
galleries fetched and parsed), the counter reads zero, the queue is
empty, and a further scheduler step changes nothing. -/
theorem C4_increment_before_gate_witness :
    ((NewNetworkOperation (initSt [])).events = [.incrOps, .acquireNet] ∧
     (NewLocalOperation (initSt [])).events = [.incrOps, .acquireLocal]) ∧
    (crawlRun ctxCycle 5 [] (fun _ => 1) 6).pending = [] ∧
    step ctxCycle 0 (crawlRun ctxCycle 5 [] (fun _ => 1) 6) =
      crawlRun ctxCycle 5 [] (fun _ => 1) 6 := by
  have h := C4_increment_before_gate ctxCycle (initSt []) 5 6 0 []
    (fun _ => 1) (by decide) (by decide)
  exact ⟨⟨by rw [h.1.1]; rfl, by rw [h.1.2]; rfl⟩, h.2⟩

/-! ## C7: termination of the crawl over a cyclic finite reference graph -/

theorem length_filter_mono {α : Type} (l : List α) (p q : α → Bool)
    (h : ∀ a, p a = true → q a = true) :
    (l.filter p).length ≤ (l.filter q).length := by
  induction l with
  | nil => simp
  | cons a l ih =>
    cases hp : p a
    · rw [List.filter_cons_of_neg (by simp [hp])]
      cases hq : q a
      · rw [List.filter_cons_of_neg (by simp [hq])]
        exact ih
      · rw [List.filter_cons_of_pos (by simp [hq])]
        simp only [List.length_cons]
        omega
    · rw [List.filter_cons_of_pos (by simp [hp]),
        List.filter_cons_of_pos (by simp [h a hp])]
      simp only [List.length_cons]
      omega

theorem length_filter_strict {α : Type} (l : List α) (p q : α → Bool) (a0 : α)
    (hmem : a0 ∈ l) (hp : p a0 = true) (hq : q a0 = false)
    (h : ∀ a, q a = true → p a = true) :
    (l.filter q).length < (l.filter p).length := by
  induction l with
  | nil => simp at hmem
  | cons a l ih =>
    rcases List.mem_cons.mp hmem with he | hm
    · subst he
      rw [List.filter_cons_of_neg (by simp [hq]),
        List.filter_cons_of_pos (by simp [hp])]
      simp only [List.length_cons]
      exact Nat.lt_succ_of_le (length_filter_mono l q p h)
    · cases hqa : q a
      · rw [List.filter_cons_of_neg (by simp [hqa])]
        cases hpa : p a
        · rw [List.filter_cons_of_neg (by simp [hpa])]
          exact ih hm
        · rw [List.filter_cons_of_pos (by simp [hpa])]
          simp only [List.length_cons]
          exact Nat.lt_succ_of_lt (ih hm)
      · rw [List.filter_cons_of_pos (by simp [hqa]),
          List.filter_cons_of_pos (by simp [h a hqa])]
        simp only [List.length_cons]
        exact Nat.succ_lt_succ (ih hm)

theorem lookup_cons_ne {β : Type} (m : List (String × β)) (k j : String) (b : β)
    (h : j ≠ k) : ((k, b) :: m).lookup j = m.lookup j := by
  simp [List.lookup, beq_eq_false_iff_ne.mpr h]

theorem lookup_cons_self {β : Type} (m : List (String × β)) (k : String) (b : β) :
    ((k, b) :: m).lookup k = some b := by
  simp [List.lookup]

theorem missingG_insert (ug : List String) (s : St) (k : String) (g : Gallery)
    (hmem : k ∈ ug) (hnew : s.galleryMap.lookup k = none) :
    missingG ug { s with galleryMap := (k, g) :: s.galleryMap } < missingG ug s := by
  unfold missingG
  apply length_filter_strict ug _ _ k hmem
  · simp [hnew]
  · simp [lookup_cons_self]
  · intro j hj
    by_cases hjk : j = k
    · subst hjk
      simp [lookup_cons_self] at hj
    · simpa [lookup_cons_ne _ _ _ _ hjk] using hj

theorem missingP_insert (up : List String) (s : St) (k : String) (q : MediaSetItem)
    (hmem : k ∈ up) (hnew : s.picMap.lookup k = none) :
    missingP up { s with picMap := (k, q) :: s.picMap } < missingP up s := by
  unfold missingP
  apply length_filter_strict up _ _ k hmem
  · simp [hnew]
  · simp [lookup_cons_self]
  · intro j hj
    by_cases hjk : j = k
    · subst hjk
      simp [lookup_cons_self] at hj
    · simpa [lookup_cons_ne _ _ _ _ hjk] using hj

theorem costL_append (l1 l2 : List CrawlTask) :
    costL (l1 ++ l2) = costL l1 + costL l2 := by
  unfold costL
  rw [List.map_append, List.sum_append]

theorem measureSt_spawnLocal (ug up : List String) (t : CrawlTask) (s : St) :
    measureSt ug up (spawnLocal t s) = measureSt ug up s + costT t := by
  unfold measureSt
  have h1 : missingG ug (spawnLocal t s) = missingG ug s := rfl
  have h2 : missingP up (spawnLocal t s) = missingP up s := rfl
  have h3 : costL (spawnLocal t s).pending = costL s.pending + costT t := by
    rw [spawnLocal_pending, costL_append]
    simp [costL]
  rw [h1, h2, h3]
  omega

theorem measureSt_doneLocal (ug up : List String) (s : St) :
    measureSt ug up (doneLocal s) = measureSt ug up s := rfl

theorem measureSt_ifLive_doneLocal (ug up : List String) (s : St) :
    measureSt ug up (ifLive doneLocal s) = measureSt ug up s := by
  unfold ifLive
  split_ifs <;> rfl

theorem measureSt_addError (ug up : List String) (ctx : Ctx) (msg : String)
    (s : St) : measureSt ug up (addError ctx msg s) = measureSt ug up s := by
  rw [addError_eq]
  rfl

theorem measureSt_eq_of_frame (ug up : List String) (s s' : St)
    (h1 : s'.galleryMap = s.galleryMap) (h2 : s'.picMap = s.picMap)
    (h3 : s'.pending = s.pending) :
    measureSt ug up s' = measureSt ug up s := by
  unfold measureSt missingG missingP
  rw [h1, h2, h3]

theorem measureSt_fetchUrlToFile (ug up : List String) (ctx : Ctx)
    (url fn : String) (esz : Int) (s : St) :
    measureSt ug up (fetchUrlToFile ctx url fn esz s).2 = measureSt ug up s := by
  have h := fetchUrlToFile_frame ctx url fn esz s
  exact measureSt_eq_of_frame ug up s _ h.1 h.2.1 h.2.2.1

theorem noteGallery_measure (ctx : Ctx) (u : String) (s : St)
    (ug up : List String) (hk : ∀ k, findKey u galleryPat = some k → k ∈ ug) :
    measureSt ug up (noteGallery ctx u s) ≤ measureSt ug up s := by
  cases hhalt : s.halted with
  | some h => rw [noteGallery_of_halted ctx u s (by simp [hhalt])]
  | none =>
    cases hf : findKey u galleryPat with
    | none =>
      unfold noteGallery
      rw [if_neg (by simp [hhalt]), hf]
      exact le_of_eq (measureSt_eq_of_frame ug up s _ rfl rfl rfl)
    | some k =>
      by_cases hknown : (s.galleryMap.lookup k).isSome
      · rw [noteGallery_known ctx u k s hhalt hf hknown]
      · have hnone : s.galleryMap.lookup k = none := by
          cases hq : s.galleryMap.lookup k
          · rfl
          · rw [hq] at hknown; simp at hknown
        rw [noteGallery_new ctx u k s hhalt hf hnone, measureSt_spawnLocal]
        have hdrop := missingG_insert ug s k ⟨k⟩ (hk k hf) hnone
        unfold measureSt
        have h2 : missingP up { s with galleryMap := (k, (⟨k⟩ : Gallery)) :: s.galleryMap } =
            missingP up s := rfl
        have h3 : costL ({ s with galleryMap := (k, (⟨k⟩ : Gallery)) :: s.galleryMap }).pending =
            costL s.pending := rfl
        rw [h2, h3]
        simp only [costT]
        omega

theorem notePhoto_measure (pic : MediaSetItem) (s : St) (ug up : List String)
    (hk : pic.key ∈ up) :
    measureSt ug up (notePhoto pic s) ≤ measureSt ug up s := by
  cases hhalt : s.halted with
  | some h =>
    unfold notePhoto
    rw [if_pos (by simp [hhalt])]
  | none =>
    by_cases hknown : (s.picMap.lookup pic.key).isSome
    · rw [notePhoto_known pic s hhalt hknown]
    · have hnone : s.picMap.lookup pic.key = none := by
        cases hq : s.picMap.lookup pic.key
        · rfl
        · rw [hq] at hknown; simp at hknown
      rw [notePhoto_new pic s hhalt hnone, measureSt_spawnLocal]
      have hdrop := missingP_insert up s pic.key pic hk hnone
      unfold measureSt
      have h1 : missingG ug { s with picMap := (pic.key, pic) :: s.picMap } =
          missingG ug s := rfl
      have h3 : costL ({ s with picMap := (pic.key, pic) :: s.picMap }).pending =
          costL s.pending := rfl
      rw [h1, h3]
      simp only [costT]
      omega

theorem notePhotoFromItem_measure (item : MediaSetItem) (s : St)
    (ug up : List String) (hk : ∀ k, findKey item.infoURL picPat = some k → k ∈ up) :
    measureSt ug up (notePhotoFromItem item s) ≤ measureSt ug up s := by
  unfold notePhotoFromItem
  split_ifs with h
  · exact le_refl _
  · cases hf : findKey item.infoURL picPat with
    | none => exact le_of_eq (measureSt_eq_of_frame ug up s _ rfl rfl rfl)
    | some k => exact notePhoto_measure _ s ug up (hk k hf)

theorem foldl_measure_le {α : Type} (f : St → α → St) (ug up : List String)
    (l : List α) (hf : ∀ (s : St) (a : α), a ∈ l →
      measureSt ug up (f s a) ≤ measureSt ug up s) :
    ∀ s : St, measureSt ug up (l.foldl f s) ≤ measureSt ug up s := by
  induction l with
  | nil => intro s; exact le_refl _
  | cons a l ih =>
    intro s
    rw [List.foldl_cons]
    calc measureSt ug up (List.foldl f (f s a) l) ≤ measureSt ug up (f s a) :=
          ih (fun t b hb => hf t b (by simp [hb])) (f s a)
      _ ≤ measureSt ug up s := hf s a (by simp)

theorem measureSt_ifLive_spawnLocal (ug up : List String) (t : CrawlTask)
    (s : St) :
    measureSt ug up (ifLive (spawnLocal t) s) ≤ measureSt ug up s + costT t := by
  unfold ifLive
  split_ifs
  · omega
  · exact le_of_eq (measureSt_spawnLocal ug up t s)

theorem GalleryFetch_measure (ctx : Ctx) (g : Gallery) (s : St)
    (ug up : List String) :
    measureSt ug up (Gallery.Fetch ctx g s) ≤ measureSt ug up s + 1 := by
  unfold Gallery.Fetch
  dsimp only
  cases hr : (fetchUrlToFile ctx (Gallery.XmlUrl ctx g)
      (galleryXmlFilename ctx g.key) (-1) s).1 with
  | false =>
    simp only [Bool.false_eq_true, if_false]
    rw [measureSt_ifLive_doneLocal, measureSt_fetchUrlToFile]
    omega
  | true =>
    simp only [if_true]
    rw [measureSt_ifLive_doneLocal]
    calc measureSt ug up (ifLive (spawnLocal (.photosInGallery (galleryXmlFilename ctx g.key)))
            (fetchUrlToFile ctx (Gallery.XmlUrl ctx g) (galleryXmlFilename ctx g.key) (-1) s).2) ≤
          measureSt ug up (fetchUrlToFile ctx (Gallery.XmlUrl ctx g)
            (galleryXmlFilename ctx g.key) (-1) s).2 + 1 :=
        measureSt_ifLive_spawnLocal ug up _ _
      _ = measureSt ug up s + 1 := by rw [measureSt_fetchUrlToFile]

theorem fetchPhotosInGallery_measure (ctx : Ctx) (fn : String) (s : St)
    (ug up : List String) (hkb : KeyBound ctx ug up) :
    measureSt ug up (fetchPhotosInGallery ctx fn s) ≤ measureSt ug up s := by
  unfold fetchPhotosInGallery
  cases hl : s.fs.lookup fn with
  | none =>
    dsimp only
    rw [measureSt_ifLive_doneLocal, measureSt_addError]
  | some content =>
    dsimp only
    cases hp : ctx.parse content with
    | none =>
      dsimp only
      rw [measureSt_ifLive_doneLocal, measureSt_addError]
    | some ms =>
      dsimp only
      rw [measureSt_ifLive_doneLocal]
      obtain ⟨hg, hi⟩ := hkb content ms hp
      refine le_trans (foldl_measure_le _ ug up _
        (fun t b hb => notePhotoFromItem_measure b t ug up
          (fun k hk => hi b hb k hk)) _) ?_
      refine le_trans (foldl_measure_le _ ug up _
        (fun t b hb => noteGallery_measure ctx b t ug up
          (fun k hk => hg b (by simp [hb]) k hk)) _) ?_
      exact foldl_measure_le _ ug up _
        (fun t b hb => noteGallery_measure ctx b t ug up
          (fun k hk => hg b (by simp [hb]) k hk)) _

theorem MediaSetItemFetch_measure (ctx : Ctx) (p : MediaSetItem) (s : St)
    (ug up : List String) :
    measureSt ug up (MediaSetItem.Fetch ctx p s) ≤ measureSt ug up s := by
  cases hr : (fetchUrlToFile ctx (MediaSetItem.XmlUrl ctx p)
      (MediaSetItem.XmlBackupFilename ctx p) (-1) s).1 with
  | false =>
    rw [MediaSetItem_Fetch_metadata_fail ctx p s hr, measureSt_ifLive_doneLocal,
      measureSt_fetchUrlToFile]
  | true =>
    by_cases hb : p.file.bytes ≤ 0
    · rw [MediaSetItem_Fetch_panic ctx p s hr hb]
      have h1 : measureSt ug up
          { doneLocal (fetchUrlToFile ctx (MediaSetItem.XmlUrl ctx p)
              (MediaSetItem.XmlBackupFilename ctx p) (-1) s).2 with
            halted := some (.panicked "expected file to have some known file size") } =
          measureSt ug up (fetchUrlToFile ctx (MediaSetItem.XmlUrl ctx p)
            (MediaSetItem.XmlBackupFilename ctx p) (-1) s).2 :=
        measureSt_eq_of_frame ug up _ _ rfl rfl rfl
      rw [h1, measureSt_fetchUrlToFile]
    · rw [MediaSetItem_Fetch_ok ctx p s hr (by omega), measureSt_ifLive_doneLocal,
        measureSt_fetchUrlToFile, measureSt_fetchUrlToFile]

theorem runTask_measure (ctx : Ctx) (t : CrawlTask) (s : St)
    (ug up : List String) (hkb : KeyBound ctx ug up) :
    measureSt ug up (runTask ctx t s) + 1 ≤ measureSt ug up s + costT t := by
  cases t with
  | galleryFetch k =>
    have := GalleryFetch_measure ctx ⟨k⟩ s ug up
    simp only [runTask, costT]
    omega
  | photosInGallery fn =>
    have := fetchPhotosInGallery_measure ctx fn s ug up hkb
    simp only [runTask, costT]
    omega
  | picFetch item =>
    have := MediaSetItemFetch_measure ctx item s ug up
    simp only [runTask, costT]
    omega

theorem costL_rotZ (i : Nat) (l : List CrawlTask) : costL (rotZ i l) = costL l := by
  unfold rotZ
  rw [costL_append, Nat.add_comm, ← costL_append, List.take_append_drop]

theorem costT_pos (t : CrawlTask) : 1 ≤ costT t := by
  cases t <;> simp [costT]

theorem costL_cons (t : CrawlTask) (l : List CrawlTask) :
    costL (t :: l) = costT t + costL l := by
  unfold costL
  simp

theorem step_measure (ctx : Ctx) (i : Nat) (s : St) (ug up : List String)
    (hkb : KeyBound ctx ug up) (hnf : ¬ finalSt s) :
    measureSt ug up (step ctx i s) < measureSt ug up s := by
  unfold finalSt at hnf
  push_neg at hnf
  obtain ⟨hlive, hpend⟩ := hnf
  have hlive' : s.halted = none := Option.not_isSome_iff_eq_none.mp hlive
  unfold step
  rw [if_neg (by rw [hlive']; simp)]
  cases hr : rotZ i s.pending with
  | nil =>
    exfalso
    have hl := rotZ_length i s.pending
    rw [hr] at hl
    exact hpend (List.length_eq_zero.mp hl.symm)
  | cons t rest =>
    dsimp only
    have hrun := runTask_measure ctx t
      { s with pending := rest, execHist := s.execHist ++ [t] } ug up hkb
    have hcost : costL s.pending = costT t + costL rest := by
      rw [← costL_rotZ i s.pending, hr, costL_cons]
    have hmeq : measureSt ug up { s with pending := rest, execHist := s.execHist ++ [t] } =
        3 * missingG ug s + 2 * missingP up s + costL rest := rfl
    have hms : measureSt ug up s =
        3 * missingG ug s + 2 * missingP up s + costL s.pending := rfl
    omega

theorem seqRun_succ (ctx : Ctx) (ch : Nat → Nat) (n : Nat) (s : St) :
    seqRun ctx ch (n + 1) s =
      seqRun ctx (fun i => ch (i + 1)) n (step ctx (ch 0) s) := rfl

theorem seqRun_reaches_final (ctx : Ctx) (ug up : List String)
    (hkb : KeyBound ctx ug up) :
    ∀ (m : Nat) (s : St) (ch : Nat → Nat), measureSt ug up s ≤ m →
      ∃ n ≤ m, finalSt (seqRun ctx ch n s) := by
  intro m
  induction m with
  | zero =>
    intro s ch hm
    by_cases hf : finalSt s
    · exact ⟨0, le_refl 0, hf⟩
    · exact absurd (step_measure ctx (ch 0) s ug up hkb hf) (by omega)
  | succ m ih =>
    intro s ch hm
    by_cases hf : finalSt s
    · exact ⟨0, by omega, hf⟩
    · have hst := step_measure ctx (ch 0) s ug up hkb hf
      obtain ⟨n, hn, hfin⟩ := ih (step ctx (ch 0) s) (fun j => ch (j + 1)) (by omega)
      exact ⟨n + 1, by omega, by rw [seqRun_succ]; exact hfin⟩

theorem spawnSync_refl (s : St) : SpawnSync s s :=
  ⟨[], by simp, by simp, rfl⟩

theorem spawnSync_trans {s1 s2 s3 : St} (h1 : SpawnSync s1 s2)
    (h2 : SpawnSync s2 s3) : SpawnSync s1 s3 := by
  obtain ⟨l1, ha1, hb1, hc1⟩ := h1
  obtain ⟨l2, ha2, hb2, hc2⟩ := h2
  exact ⟨l1 ++ l2, by rw [ha2, ha1, List.append_assoc],
    by rw [hb2, hb1, List.append_assoc], by rw [hc2, hc1]⟩

theorem spawnSync_of_frame (s s' : St) (h1 : s'.spawned = s.spawned)
    (h2 : s'.pending = s.pending) (h3 : s'.execHist = s.execHist) :
    SpawnSync s s' :=
  ⟨[], by simp [h1], by simp [h2], h3⟩

theorem spawnSync_spawnLocal (t : CrawlTask) (s : St) :
    SpawnSync s (spawnLocal t s) :=
  ⟨[t], rfl, rfl, rfl⟩

theorem spawnSync_fetchUrlToFile (ctx : Ctx) (url fn : String) (esz : Int)
    (s : St) : SpawnSync s (fetchUrlToFile ctx url fn esz s).2 := by
  have h := fetchUrlToFile_frame ctx url fn esz s
  exact spawnSync_of_frame _ _ h.2.2.2.1 h.2.2.1 h.2.2.2.2.1

theorem spawnSync_doneLocal (s : St) : SpawnSync s (doneLocal s) :=
  spawnSync_of_frame _ _ rfl rfl rfl

theorem spawnSync_ifLive (f : St → St) (hf : ∀ t, SpawnSync t (f t)) (s : St) :
    SpawnSync s (ifLive f s) := by
  unfold ifLive
  split_ifs
  · exact spawnSync_refl s
  · exact hf s

theorem spawnSync_addError (ctx : Ctx) (msg : String) (s : St) :
    SpawnSync s (addError ctx msg s) := by
  rw [addError_eq]
  exact spawnSync_of_frame _ _ rfl rfl rfl

theorem spawnSync_noteGallery (ctx : Ctx) (u : String) (s : St) :
    SpawnSync s (noteGallery ctx u s) := by
  unfold noteGallery
  split_ifs with h
  · exact spawnSync_refl s
  · cases findKey u galleryPat with
    | none => exact spawnSync_of_frame _ _ rfl rfl rfl
    | some k =>
      dsimp only
      split_ifs with h2
      · exact spawnSync_refl s
      · exact ⟨[.galleryFetch k], rfl, rfl, rfl⟩

theorem spawnSync_notePhoto (pic : MediaSetItem) (s : St) :
    SpawnSync s (notePhoto pic s) := by
  unfold notePhoto
  split_ifs with h1 h2
  · exact spawnSync_refl s
  · exact spawnSync_refl s
  · exact ⟨[.picFetch pic], rfl, rfl, rfl⟩

theorem spawnSync_notePhotoFromItem (item : MediaSetItem) (s : St) :
    SpawnSync s (notePhotoFromItem item s) := by
  unfold notePhotoFromItem
  split_ifs with h
  · exact spawnSync_refl s
  · cases findKey item.infoURL picPat with
    | none => exact spawnSync_of_frame _ _ rfl rfl rfl
    | some k => exact spawnSync_notePhoto _ s

theorem spawnSync_foldl {α : Type} (f : St → α → St)
    (hf : ∀ (s : St) (a : α), SpawnSync s (f s a)) :
    ∀ (l : List α) (s : St), SpawnSync s (l.foldl f s) := by
  intro l
  induction l with
  | nil => intro s; exact spawnSync_refl s
  | cons a l ih =>
    intro s
    rw [List.foldl_cons]
    exact spawnSync_trans (hf s a) (ih (f s a))

theorem spawnSync_GalleryFetch (ctx : Ctx) (g : Gallery) (s : St) :
    SpawnSync s (Gallery.Fetch ctx g s) := by
  unfold Gallery.Fetch
  dsimp only
  refine spawnSync_trans (spawnSync_fetchUrlToFile ctx (Gallery.XmlUrl ctx g)
    (galleryXmlFilename ctx g.key) (-1) s) ?_
  refine spawnSync_trans ?_ (spawnSync_ifLive _ spawnSync_doneLocal _)
  split_ifs
  · exact spawnSync_ifLive _ (spawnSync_spawnLocal _) _
  · exact spawnSync_refl _

theorem spawnSync_fetchPhotosInGallery (ctx : Ctx) (fn : String) (s : St) :
    SpawnSync s (fetchPhotosInGallery ctx fn s) := by
  unfold fetchPhotosInGallery
  cases s.fs.lookup fn with
  | none =>
    dsimp only
    exact spawnSync_trans (spawnSync_addError ctx _ s)
      (spawnSync_ifLive _ spawnSync_doneLocal _)
  | some content =>
    dsimp only
    cases ctx.parse content with
    | none =>
      dsimp only
      exact spawnSync_trans (spawnSync_addError ctx _ s)
        (spawnSync_ifLive _ spawnSync_doneLocal _)
    | some ms =>
      dsimp only
      refine spawnSync_trans (spawnSync_foldl _
        (fun t u => spawnSync_noteGallery ctx u t) ms.linkedFrom s) ?_
      refine spawnSync_trans (spawnSync_foldl _
        (fun t u => spawnSync_noteGallery ctx u t) ms.linkedTo _) ?_
      refine spawnSync_trans (spawnSync_foldl _
        (fun t q => spawnSync_notePhotoFromItem q t) ms.mediaSetItems _) ?_
      exact spawnSync_ifLive _ spawnSync_doneLocal _

theorem spawnSync_MediaSetItemFetch (ctx : Ctx) (p : MediaSetItem) (s : St) :
    SpawnSync s (MediaSetItem.Fetch ctx p s) := by
  cases hr : (fetchUrlToFile ctx (MediaSetItem.XmlUrl ctx p)
      (MediaSetItem.XmlBackupFilename ctx p) (-1) s).1 with
  | false =>
    rw [MediaSetItem_Fetch_metadata_fail ctx p s hr]
    exact spawnSync_trans (spawnSync_fetchUrlToFile ctx _ _ _ s)
      (spawnSync_ifLive _ spawnSync_doneLocal _)
  | true =>
    by_cases hb : p.file.bytes ≤ 0
    · rw [MediaSetItem_Fetch_panic ctx p s hr hb]
      refine spawnSync_trans (spawnSync_fetchUrlToFile ctx
        (MediaSetItem.XmlUrl ctx p) (MediaSetItem.XmlBackupFilename ctx p) (-1) s) ?_
      exact spawnSync_of_frame _ _ rfl rfl rfl
    · rw [MediaSetItem_Fetch_ok ctx p s hr (by omega)]
      refine spawnSync_trans (spawnSync_fetchUrlToFile ctx
        (MediaSetItem.XmlUrl ctx p) (MediaSetItem.XmlBackupFilename ctx p) (-1) s) ?_
      exact spawnSync_trans (spawnSync_fetchUrlToFile ctx _ _ _ _)
        (spawnSync_ifLive _ spawnSync_doneLocal _)

theorem spawnSync_runTask (ctx : Ctx) (t : CrawlTask) (s : St) :
    SpawnSync s (runTask ctx t s) := by
  cases t with
  | galleryFetch k => exact spawnSync_GalleryFetch ctx ⟨k⟩ s
  | photosInGallery fn => exact spawnSync_fetchPhotosInGallery ctx fn s
  | picFetch item => exact spawnSync_MediaSetItemFetch ctx item s

theorem conserv_of_sync {s s' : St} (hsync : SpawnSync s s') (h : Conserv s) :
    Conserv s' := by
  obtain ⟨l, h1, h2, h3⟩ := hsync
  intro t
  rw [h1, h2, h3, List.count_append, List.count_append]
  have := h t
  omega

theorem count_rotZ (i : Nat) (l : List CrawlTask) (a : CrawlTask) :
    (rotZ i l).count a = l.count a := by
  unfold rotZ
  rw [List.count_append, Nat.add_comm, ← List.count_append,
    List.take_append_drop]

theorem conserv_step (ctx : Ctx) (i : Nat) (s : St) (h : Conserv s) :
    Conserv (step ctx i s) := by
  unfold step
  split_ifs with hh
  · exact h
  · cases hr : rotZ i s.pending with
    | nil => exact h
    | cons t rest =>
      dsimp only
      apply conserv_of_sync (spawnSync_runTask ctx t _)
      intro t'
      have hcnt := count_rotZ i s.pending t'
      rw [hr, List.count_cons] at hcnt
      have hs := h t'
      simp only [List.count_append, List.count_cons, List.count_nil]
      omega

theorem spawnLocal_spawned (t : CrawlTask) (s : St) :
    (spawnLocal t s).spawned = s.spawned ++ [t] := rfl

theorem gkey_of_frame (s s' : St) (hsp : s'.spawned = s.spawned)
    (hm : s'.galleryMap = s.galleryMap) (h : GKey s) : GKey s' := by
  intro k
  rw [hsp, hm]
  exact h k

theorem gkey_noteGallery (ctx : Ctx) (u : String) (s : St) (h : GKey s) :
    GKey (noteGallery ctx u s) := by
  unfold noteGallery
  split_ifs with hh
  · exact h
  · cases hf : findKey u galleryPat with
    | none => exact gkey_of_frame s _ rfl rfl h
    | some k0 =>
      dsimp only
      split_ifs with hknown
      · exact h
      · intro k
        rw [spawnLocal_spawned]
        have hmap : (spawnLocal (CrawlTask.galleryFetch k0)
            { s with galleryMap := (k0, (⟨k0⟩ : Gallery)) :: s.galleryMap }).galleryMap =
            (k0, (⟨k0⟩ : Gallery)) :: s.galleryMap := rfl
        rw [hmap]
        by_cases hk : k = k0
        · subst hk
          have h0 := h k
          have hnone : s.galleryMap.lookup k = none := by
            cases hq : s.galleryMap.lookup k
            · rfl
            · rw [hq] at hknown; simp at hknown
          rw [hnone] at h0
          simp only [Option.isSome_none, Bool.false_eq_true, if_false] at h0
          rw [lookup_cons_self]
          simp [List.count_append, List.count_cons, h0]
        · rw [lookup_cons_ne _ _ _ _ hk]
          have h0 := h k
          have hbeq : (CrawlTask.galleryFetch k0 == CrawlTask.galleryFetch k) = false := by
            simp only [beq_eq_false_iff_ne, ne_eq, CrawlTask.galleryFetch.injEq]
            exact fun he => hk he.symm
          simp [List.count_append, List.count_cons, hbeq, h0]

theorem gkey_notePhoto (pic : MediaSetItem) (s : St) (h : GKey s) :
    GKey (notePhoto pic s) := by
  unfold notePhoto
  split_ifs with h1 h2
  · exact h
  · exact h
  · intro k
    rw [spawnLocal_spawned]
    simp only [List.count_append, List.count_cons, List.count_nil]
    simpa using h k

theorem gkey_notePhotoFromItem (item : MediaSetItem) (s : St) (h : GKey s) :
    GKey (notePhotoFromItem item s) := by
  unfold notePhotoFromItem
  split_ifs with hh
  · exact h
  · cases findKey item.infoURL picPat with
    | none => exact gkey_of_frame s _ rfl rfl h
    | some k => exact gkey_notePhoto _ s h

theorem gkey_foldl {α : Type} (f : St → α → St)
    (hf : ∀ (s : St) (a : α), GKey s → GKey (f s a)) :
    ∀ (l : List α) (s : St), GKey s → GKey (l.foldl f s) := by
  intro l
  induction l with
  | nil => intro s h; exact h
  | cons a l ih => intro s h; rw [List.foldl_cons]; exact ih _ (hf s a h)

theorem gkey_fetchUrlToFile (ctx : Ctx) (url fn : String) (esz : Int) (s : St)
    (h : GKey s) : GKey (fetchUrlToFile ctx url fn esz s).2 := by
  have hf := fetchUrlToFile_frame ctx url fn esz s
  exact gkey_of_frame s _ hf.2.2.2.1 hf.1 h

theorem gkey_ifLive_doneLocal (s : St) (h : GKey s) : GKey (ifLive doneLocal s) := by
  unfold ifLive
  split_ifs
  · exact h
  · exact gkey_of_frame s _ rfl rfl h

theorem gkey_GalleryFetch (ctx : Ctx) (g : Gallery) (s : St) (h : GKey s) :
    GKey (Gallery.Fetch ctx g s) := by
  unfold Gallery.Fetch
  dsimp only
  apply gkey_ifLive_doneLocal
  have h2 := gkey_fetchUrlToFile ctx (Gallery.XmlUrl ctx g)
    (galleryXmlFilename ctx g.key) (-1) s h
  split_ifs
  · unfold ifLive
    split_ifs
    · exact h2
    · intro k
      rw [spawnLocal_spawned]
      simp only [List.count_append, List.count_cons, List.count_nil]
      rw [show ((spawnLocal (CrawlTask.photosInGallery (galleryXmlFilename ctx g.key)) (fetchUrlToFile ctx (Gallery.XmlUrl ctx g) (galleryXmlFilename ctx g.key) (-1) s).2).galleryMap) = (fetchUrlToFile ctx (Gallery.XmlUrl ctx g) (galleryXmlFilename ctx g.key) (-1) s).2.galleryMap from rfl]
      simpa using h2 k
  · exact h2

theorem gkey_addError (ctx : Ctx) (msg : String) (s : St) (h : GKey s) :
    GKey (addError ctx msg s) := by
  rw [addError_eq]
  exact gkey_of_frame s _ rfl rfl h

theorem gkey_fetchPhotosInGallery (ctx : Ctx) (fn : String) (s : St)
    (h : GKey s) : GKey (fetchPhotosInGallery ctx fn s) := by
  unfold fetchPhotosInGallery
  cases s.fs.lookup fn with
  | none =>
    dsimp only
    exact gkey_ifLive_doneLocal _ (gkey_addError ctx _ s h)
  | some content =>
    dsimp only
    cases ctx.parse content with
    | none =>
      dsimp only
      exact gkey_ifLive_doneLocal _ (gkey_addError ctx _ s h)
    | some ms =>
      dsimp only
      apply gkey_ifLive_doneLocal
      apply gkey_foldl _ (fun t q hq => gkey_notePhotoFromItem q t hq)
      apply gkey_foldl _ (fun t u hu => gkey_noteGallery ctx u t hu)
      apply gkey_foldl _ (fun t u hu => gkey_noteGallery ctx u t hu)
      exact h

theorem gkey_MediaSetItemFetch (ctx : Ctx) (p : MediaSetItem) (s : St)
    (h : GKey s) : GKey (MediaSetItem.Fetch ctx p s) := by
  cases hr : (fetchUrlToFile ctx (MediaSetItem.XmlUrl ctx p)
      (MediaSetItem.XmlBackupFilename ctx p) (-1) s).1 with
  | false =>
    rw [MediaSetItem_Fetch_metadata_fail ctx p s hr]
    exact gkey_ifLive_doneLocal _ (gkey_fetchUrlToFile ctx _ _ _ s h)
  | true =>
    by_cases hb : p.file.bytes ≤ 0
    · rw [MediaSetItem_Fetch_panic ctx p s hr hb]
      exact gkey_of_frame _ _ rfl rfl (gkey_fetchUrlToFile ctx _ _ _ s h)
    · rw [MediaSetItem_Fetch_ok ctx p s hr (by omega)]
      exact gkey_ifLive_doneLocal _ (gkey_fetchUrlToFile ctx _ _ _ _
        (gkey_fetchUrlToFile ctx _ _ _ s h))

theorem gkey_runTask (ctx : Ctx) (t : CrawlTask) (s : St) (h : GKey s) :
    GKey (runTask ctx t s) := by
  cases t with
  | galleryFetch k => exact gkey_GalleryFetch ctx ⟨k⟩ s h
  | photosInGallery fn => exact gkey_fetchPhotosInGallery ctx fn s h
  | picFetch item => exact gkey_MediaSetItemFetch ctx item s h

theorem gkey_step (ctx : Ctx) (i : Nat) (s : St) (h : GKey s) :
    GKey (step ctx i s) := by
  unfold step
  split_ifs with hh
  · exact h
  · cases rotZ i s.pending with
    | nil => exact h
    | cons t rest =>
      dsimp only
      exact gkey_runTask ctx t _ (gkey_of_frame s _ rfl rfl h)

theorem pkey_of_frame (s s' : St) (hsp : s'.spawned = s.spawned)
    (hm : s'.picMap = s.picMap) (h : PKey s) : PKey s' := by
  intro k
  rw [hsp, hm]
  exact h k

theorem pkey_filter_notPic (k : String) (t : CrawlTask)
    (ht : ∀ p : MediaSetItem, t ≠ .picFetch p) :
    (List.filter (fun t => match t with
      | CrawlTask.picFetch p => p.key = k | _ => false) [t]) = [] := by
  cases t with
  | picFetch p => exact absurd rfl (ht p)
  | galleryFetch k0 => rfl
  | photosInGallery fn => rfl

theorem pkey_noteGallery (ctx : Ctx) (u : String) (s : St) (h : PKey s) :
    PKey (noteGallery ctx u s) := by
  unfold noteGallery
  split_ifs with hh
  · exact h
  · cases hf : findKey u galleryPat with
    | none => exact pkey_of_frame s _ rfl rfl h
    | some k0 =>
      dsimp only
      split_ifs with hknown
      · exact h
      · intro k
        rw [spawnLocal_spawned, List.filter_append,
          pkey_filter_notPic k _ (by intro p hp; cases hp)]
        simpa using h k

theorem pkey_notePhoto (pic : MediaSetItem) (s : St) (h : PKey s) :
    PKey (notePhoto pic s) := by
  unfold notePhoto
  split_ifs with h1 h2
  · exact h
  · exact h
  · intro k
    rw [spawnLocal_spawned, List.filter_append]
    have hmap : (spawnLocal (CrawlTask.picFetch pic)
        { s with picMap := (pic.key, pic) :: s.picMap }).picMap =
        (pic.key, pic) :: s.picMap := rfl
    rw [hmap]
    by_cases hk : k = pic.key
    · rw [hk]
      have h0 := h pic.key
      have hnone : s.picMap.lookup pic.key = none := by
        cases hq : s.picMap.lookup pic.key
        · rfl
        · rw [hq] at h2; simp at h2
      rw [hnone] at h0
      simp only [Option.isSome_none, Bool.false_eq_true, if_false] at h0
      rw [lookup_cons_self]
      simp only [List.length_append, h0]
      simp [List.filter]
    · rw [lookup_cons_ne _ _ _ _ hk]
      have h0 := h k
      have hfe : (List.filter (fun t => match t with
          | CrawlTask.picFetch p => p.key = k | _ => false)
          [CrawlTask.picFetch pic]) = [] := by
        simp only [List.filter]
        have : decide (pic.key = k) = false := by
          simp only [decide_eq_false_iff_not]
          exact fun he => hk he.symm
        simp [this]
      rw [hfe]
      simpa using h0

theorem pkey_notePhotoFromItem (item : MediaSetItem) (s : St) (h : PKey s) :
    PKey (notePhotoFromItem item s) := by
  unfold notePhotoFromItem
  split_ifs with hh
  · exact h
  · cases findKey item.infoURL picPat with
    | none => exact pkey_of_frame s _ rfl rfl h
    | some k => exact pkey_notePhoto _ s h

theorem pkey_foldl {α : Type} (f : St → α → St)
    (hf : ∀ (s : St) (a : α), PKey s → PKey (f s a)) :
    ∀ (l : List α) (s : St), PKey s → PKey (l.foldl f s) := by
  intro l
  induction l with
  | nil => intro s h; exact h
  | cons a l ih => intro s h; rw [List.foldl_cons]; exact ih _ (hf s a h)

theorem pkey_fetchUrlToFile (ctx : Ctx) (url fn : String) (esz : Int) (s : St)
    (h : PKey s) : PKey (fetchUrlToFile ctx url fn esz s).2 := by
  have hf := fetchUrlToFile_frame ctx url fn esz s
  exact pkey_of_frame s _ hf.2.2.2.1 hf.2.1 h

theorem pkey_ifLive_doneLocal (s : St) (h : PKey s) : PKey (ifLive doneLocal s) := by
  unfold ifLive
  split_ifs
  · exact h
  · exact pkey_of_frame s _ rfl rfl h

theorem pkey_addError (ctx : Ctx) (msg : String) (s : St) (h : PKey s) :
    PKey (addError ctx msg s) := by
  rw [addError_eq]
  exact pkey_of_frame s _ rfl rfl h

theorem pkey_GalleryFetch (ctx : Ctx) (g : Gallery) (s : St) (h : PKey s) :
    PKey (Gallery.Fetch ctx g s) := by
  unfold Gallery.Fetch
  dsimp only
  apply pkey_ifLive_doneLocal
  have h2 := pkey_fetchUrlToFile ctx (Gallery.XmlUrl ctx g)
    (galleryXmlFilename ctx g.key) (-1) s h
  split_ifs
  · unfold ifLive
    split_ifs
    · exact h2
    · intro k
      rw [spawnLocal_spawned, List.filter_append,
        pkey_filter_notPic k _ (by intro p hp; cases hp)]
      simpa using h2 k
  · exact h2

theorem pkey_fetchPhotosInGallery (ctx : Ctx) (fn : String) (s : St)
    (h : PKey s) : PKey (fetchPhotosInGallery ctx fn s) := by
  unfold fetchPhotosInGallery
  cases s.fs.lookup fn with
  | none =>
    dsimp only
    exact pkey_ifLive_doneLocal _ (pkey_addError ctx _ s h)
  | some content =>
    dsimp only
    cases ctx.parse content with
    | none =>
      dsimp only
      exact pkey_ifLive_doneLocal _ (pkey_addError ctx _ s h)
    | some ms =>
      dsimp only
      apply pkey_ifLive_doneLocal
      apply pkey_foldl _ (fun t q hq => pkey_notePhotoFromItem q t hq)
      apply pkey_foldl _ (fun t u hu => pkey_noteGallery ctx u t hu)
      apply pkey_foldl _ (fun t u hu => pkey_noteGallery ctx u t hu)
      exact h

theorem pkey_MediaSetItemFetch (ctx : Ctx) (p : MediaSetItem) (s : St)
    (h : PKey s) : PKey (MediaSetItem.Fetch ctx p s) := by
  cases hr : (fetchUrlToFile ctx (MediaSetItem.XmlUrl ctx p)
      (MediaSetItem.XmlBackupFilename ctx p) (-1) s).1 with
  | false =>
    rw [MediaSetItem_Fetch_metadata_fail ctx p s hr]
    exact pkey_ifLive_doneLocal _ (pkey_fetchUrlToFile ctx _ _ _ s h)
  | true =>
    by_cases hb : p.file.bytes ≤ 0
    · rw [MediaSetItem_Fetch_panic ctx p s hr hb]
      exact pkey_of_frame _ _ rfl rfl (pkey_fetchUrlToFile ctx _ _ _ s h)
    · rw [MediaSetItem_Fetch_ok ctx p s hr (by omega)]
      exact pkey_ifLive_doneLocal _ (pkey_fetchUrlToFile ctx _ _ _ _
        (pkey_fetchUrlToFile ctx _ _ _ s h))

theorem pkey_runTask (ctx : Ctx) (t : CrawlTask) (s : St) (h : PKey s) :
    PKey (runTask ctx t s) := by
  cases t with
  | galleryFetch k => exact pkey_GalleryFetch ctx ⟨k⟩ s h
  | photosInGallery fn => exact pkey_fetchPhotosInGallery ctx fn s h
  | picFetch item => exact pkey_MediaSetItemFetch ctx item s h

theorem pkey_step (ctx : Ctx) (i : Nat) (s : St) (h : PKey s) :
    PKey (step ctx i s) := by
  unfold step
  split_ifs with hh
  · exact h
  · cases rotZ i s.pending with
    | nil => exact h
    | cons t rest =>
      dsimp only
      exact pkey_runTask ctx t _ (pkey_of_frame s _ rfl rfl h)

theorem galleryXmlFilename_inj (ctx : Ctx) (k k' : String)
    (h : galleryXmlFilename ctx k = galleryXmlFilename ctx k') : k = k' := by
  unfold galleryXmlFilename at h
  have hd := congrArg String.data h
  simp only [String.data_append] at hd
  have h1 := List.append_cancel_right hd
  have h2 := List.append_cancel_left h1
  exact String.ext h2

theorem photos_noteGallery (ctx : Ctx) (u : String) (s : St) (fn : String) :
    (noteGallery ctx u s).spawned.count (.photosInGallery fn) =
      s.spawned.count (.photosInGallery fn) := by
  unfold noteGallery
  split_ifs with hh
  · rfl
  · cases findKey u galleryPat with
    | none => rfl
    | some k =>
      dsimp only
      split_ifs
      · rfl
      · rw [spawnLocal_spawned]
        simp [List.count_append, List.count_cons]

theorem photos_notePhoto (pic : MediaSetItem) (s : St) (fn : String) :
    (notePhoto pic s).spawned.count (.photosInGallery fn) =
      s.spawned.count (.photosInGallery fn) := by
  unfold notePhoto
  split_ifs
  · rfl
  · rfl
  · rw [spawnLocal_spawned]
    simp [List.count_append, List.count_cons]

theorem photos_notePhotoFromItem (item : MediaSetItem) (s : St) (fn : String) :
    (notePhotoFromItem item s).spawned.count (.photosInGallery fn) =
      s.spawned.count (.photosInGallery fn) := by
  unfold notePhotoFromItem
  split_ifs
  · rfl
  · cases findKey item.infoURL picPat with
    | none => rfl
    | some k => exact photos_notePhoto _ s fn

theorem photos_foldl {α : Type} (f : St → α → St) (fn : String)
    (hf : ∀ (s : St) (a : α), (f s a).spawned.count (.photosInGallery fn) =
      s.spawned.count (.photosInGallery fn)) :
    ∀ (l : List α) (s : St),
      (l.foldl f s).spawned.count (.photosInGallery fn) =
        s.spawned.count (.photosInGallery fn) := by
  intro l
  induction l with
  | nil => intro s; rfl
  | cons a l ih => intro s; rw [List.foldl_cons, ih, hf]

theorem photos_fetchUrlToFile (ctx : Ctx) (url f : String) (esz : Int) (s : St)
    (fn : String) :
    (fetchUrlToFile ctx url f esz s).2.spawned.count (.photosInGallery fn) =
      s.spawned.count (.photosInGallery fn) := by
  rw [(fetchUrlToFile_frame ctx url f esz s).2.2.2.1]

theorem photos_ifLive_doneLocal (s : St) (fn : String) :
    (ifLive doneLocal s).spawned.count (.photosInGallery fn) =
      s.spawned.count (.photosInGallery fn) := by
  unfold ifLive
  split_ifs <;> rfl

theorem photos_addError (ctx : Ctx) (msg : String) (s : St) (fn : String) :
    (addError ctx msg s).spawned.count (.photosInGallery fn) =
      s.spawned.count (.photosInGallery fn) := by
  rw [addError_eq]

theorem photos_fetchPhotosInGallery (ctx : Ctx) (f : String) (s : St)
    (fn : String) :
    (fetchPhotosInGallery ctx f s).spawned.count (.photosInGallery fn) =
      s.spawned.count (.photosInGallery fn) := by
  unfold fetchPhotosInGallery
  cases s.fs.lookup f with
  | none =>
    dsimp only
    rw [photos_ifLive_doneLocal, photos_addError]
  | some content =>
    dsimp only
    cases ctx.parse content with
    | none =>
      dsimp only
      rw [photos_ifLive_doneLocal, photos_addError]
    | some ms =>
      dsimp only
      rw [photos_ifLive_doneLocal,
        photos_foldl _ fn (fun t q => photos_notePhotoFromItem q t fn),
        photos_foldl _ fn (fun t u => photos_noteGallery ctx u t fn),
        photos_foldl _ fn (fun t u => photos_noteGallery ctx u t fn)]

theorem photos_MediaSetItemFetch (ctx : Ctx) (p : MediaSetItem) (s : St)
    (fn : String) :
    (MediaSetItem.Fetch ctx p s).spawned.count (.photosInGallery fn) =
      s.spawned.count (.photosInGallery fn) := by
  cases hr : (fetchUrlToFile ctx (MediaSetItem.XmlUrl ctx p)
      (MediaSetItem.XmlBackupFilename ctx p) (-1) s).1 with
  | false =>
    rw [MediaSetItem_Fetch_metadata_fail ctx p s hr, photos_ifLive_doneLocal,
      photos_fetchUrlToFile]
  | true =>
    by_cases hb : p.file.bytes ≤ 0
    · rw [MediaSetItem_Fetch_panic ctx p s hr hb]
      have : ({ doneLocal (fetchUrlToFile ctx (MediaSetItem.XmlUrl ctx p)
          (MediaSetItem.XmlBackupFilename ctx p) (-1) s).2 with
          halted := some (.panicked "expected file to have some known file size") } : St).spawned =
          (fetchUrlToFile ctx (MediaSetItem.XmlUrl ctx p)
            (MediaSetItem.XmlBackupFilename ctx p) (-1) s).2.spawned := rfl
      rw [this, (fetchUrlToFile_frame ctx _ _ _ s).2.2.2.1]
    · rw [MediaSetItem_Fetch_ok ctx p s hr (by omega), photos_ifLive_doneLocal,
        photos_fetchUrlToFile, photos_fetchUrlToFile]

theorem photos_GalleryFetch (ctx : Ctx) (g : Gallery) (s : St) (fn : String) :
    (Gallery.Fetch ctx g s).spawned.count (.photosInGallery fn) ≤
      s.spawned.count (.photosInGallery fn) +
        (if fn = galleryXmlFilename ctx g.key then 1 else 0) := by
  unfold Gallery.Fetch
  dsimp only
  rw [photos_ifLive_doneLocal]
  cases hr : (fetchUrlToFile ctx (Gallery.XmlUrl ctx g)
      (galleryXmlFilename ctx g.key) (-1) s).1 with
  | false =>
    simp only [Bool.false_eq_true, if_false]
    rw [photos_fetchUrlToFile]
    split_ifs <;> omega
  | true =>
    simp only [if_true]
    unfold ifLive
    by_cases hhalt : (fetchUrlToFile ctx (Gallery.XmlUrl ctx g)
        (galleryXmlFilename ctx g.key) (-1) s).2.halted.isSome = true
    · rw [if_pos hhalt, photos_fetchUrlToFile]
      split_ifs <;> omega
    · rw [if_neg hhalt, spawnLocal_spawned, List.count_append, List.count_singleton',
        photos_fetchUrlToFile]
      simp only [beq_iff_eq, CrawlTask.photosInGallery.injEq]
      by_cases hfe : fn = galleryXmlFilename ctx g.key
      · rw [if_pos hfe, if_pos hfe.symm]
      · rw [if_neg hfe, if_neg (fun he => hfe he.symm)]

theorem photoBound_of_eq (ctx : Ctx) (s s' : St)
    (hsp : ∀ fn, s'.spawned.count (.photosInGallery fn) =
      s.spawned.count (.photosInGallery fn))
    (hex : s'.execHist = s.execHist) (h : PhotoBound ctx s) :
    PhotoBound ctx s' := by
  intro k
  rw [hsp, hex]
  exact h k


theorem photoBound_runTask (ctx : Ctx) (t : CrawlTask) (s' : St)
    (hpb : ∀ k, s'.spawned.count (.photosInGallery (galleryXmlFilename ctx k)) +
        (if t = CrawlTask.galleryFetch k then 1 else 0) ≤
      s'.execHist.count (.galleryFetch k)) :
    PhotoBound ctx (runTask ctx t s') := by
  intro k
  obtain ⟨l, hl1, hl2, hl3⟩ := spawnSync_runTask ctx t s'
  rw [hl3]
  cases t with
  | galleryFetch k0 =>
    have hb := photos_GalleryFetch ctx ⟨k0⟩ s' (galleryXmlFilename ctx k)
    rw [show (⟨k0⟩ : Gallery).key = k0 from rfl] at hb
    have hp := hpb k
    have hrun : runTask ctx (CrawlTask.galleryFetch k0) s' =
        Gallery.Fetch ctx ⟨k0⟩ s' := rfl
    rw [hrun]
    by_cases hk : k = k0
    · rw [if_pos (by rw [hk])] at hp
      have hind : (if galleryXmlFilename ctx k = galleryXmlFilename ctx k0
          then 1 else 0) ≤ 1 := by split_ifs <;> omega
      omega
    · rw [if_neg (by intro he; injection he with h'; exact hk h'.symm)] at hp
      have hfne : galleryXmlFilename ctx k ≠ galleryXmlFilename ctx k0 :=
        fun he => hk (galleryXmlFilename_inj ctx k k0 he)
      rw [if_neg hfne] at hb
      omega
  | photosInGallery fn0 =>
    have heq := photos_fetchPhotosInGallery ctx fn0 s' (galleryXmlFilename ctx k)
    have hp := hpb k
    rw [if_neg (by simp)] at hp
    have hrun : runTask ctx (CrawlTask.photosInGallery fn0) s' =
        fetchPhotosInGallery ctx fn0 s' := rfl
    rw [hrun, heq]
    omega
  | picFetch item =>
    have heq := photos_MediaSetItemFetch ctx item s' (galleryXmlFilename ctx k)
    have hp := hpb k
    rw [if_neg (by simp)] at hp
    have hrun : runTask ctx (CrawlTask.picFetch item) s' =
        MediaSetItem.Fetch ctx item s' := rfl
    rw [hrun, heq]
    omega

theorem photoBound_step (ctx : Ctx) (i : Nat) (s : St) (h : PhotoBound ctx s) :
    PhotoBound ctx (step ctx i s) := by
  unfold step
  split_ifs with hh
  · exact h
  · cases hr : rotZ i s.pending with
    | nil => exact h
    | cons t rest =>
      dsimp only
      apply photoBound_runTask
      intro k
      have hsp : ({ s with pending := rest, execHist := s.execHist ++ [t] } : St).spawned =
          s.spawned := rfl
      have hex : ({ s with pending := rest, execHist := s.execHist ++ [t] } : St).execHist =
          s.execHist ++ [t] := rfl
      rw [hsp, hex, List.count_append, List.count_singleton']
      have hp := h k
      omega

theorem spawnSync_fetchGalleryPage (ctx : Ctx) (page : Nat) (s : St) :
    SpawnSync s (fetchGalleryPage ctx page s) := by
  unfold fetchGalleryPage
  cases ctx.net (pageUrl ctx page) with
  | getFail => exact spawnSync_of_frame _ _ rfl rfl rfl
  | readFail => exact spawnSync_of_frame _ _ rfl rfl rfl
  | ok html =>
    dsimp only
    refine spawnSync_trans (spawnSync_of_frame s
      { s with pagesFetched := s.pagesFetched ++ [page],
               events := s.events ++ [.netGet (pageUrl ctx page)] } rfl rfl rfl) ?_
    exact spawnSync_foldl _ (fun t ks => spawnSync_noteGallery ctx (String.mk ks) t) _ _

theorem gkey_fetchGalleryPage (ctx : Ctx) (page : Nat) (s : St) (h : GKey s) :
    GKey (fetchGalleryPage ctx page s) := by
  unfold fetchGalleryPage
  cases ctx.net (pageUrl ctx page) with
  | getFail => exact gkey_of_frame s _ rfl rfl h
  | readFail => exact gkey_of_frame s _ rfl rfl h
  | ok html =>
    dsimp only
    apply gkey_foldl _ (fun t u hu => gkey_noteGallery ctx _ t hu)
    exact gkey_of_frame s _ rfl rfl h

theorem pkey_fetchGalleryPage (ctx : Ctx) (page : Nat) (s : St) (h : PKey s) :
    PKey (fetchGalleryPage ctx page s) := by
  unfold fetchGalleryPage
  cases ctx.net (pageUrl ctx page) with
  | getFail => exact pkey_of_frame s _ rfl rfl h
  | readFail => exact pkey_of_frame s _ rfl rfl h
  | ok html =>
    dsimp only
    apply pkey_foldl _ (fun t u hu => pkey_noteGallery ctx _ t hu)
    exact pkey_of_frame s _ rfl rfl h

theorem photos_fetchGalleryPage (ctx : Ctx) (page : Nat) (s : St) (fn : String) :
    (fetchGalleryPage ctx page s).spawned.count (.photosInGallery fn) =
      s.spawned.count (.photosInGallery fn) := by
  unfold fetchGalleryPage
  cases ctx.net (pageUrl ctx page) with
  | getFail => rfl
  | readFail => rfl
  | ok html =>
    dsimp only
    exact photos_foldl _ fn (fun t ks => photos_noteGallery ctx _ t fn) _ _

theorem photoBound_fetchGalleryPage (ctx : Ctx) (page : Nat) (s : St)
    (h : PhotoBound ctx s) : PhotoBound ctx (fetchGalleryPage ctx page s) := by
  obtain ⟨l, hl1, hl2, hl3⟩ := spawnSync_fetchGalleryPage ctx page s
  exact photoBound_of_eq ctx s _ (fun fn => photos_fetchGalleryPage ctx page s fn)
    hl3 h

theorem goodT_fetchGalleryPage (ctx : Ctx) (page : Nat) (s : St)
    (h : GoodT ctx s) : GoodT ctx (fetchGalleryPage ctx page s) :=
  ⟨conserv_of_sync (spawnSync_fetchGalleryPage ctx page s) h.1,
   gkey_fetchGalleryPage ctx page s h.2.1,
   pkey_fetchGalleryPage ctx page s h.2.2.1,
   photoBound_fetchGalleryPage ctx page s h.2.2.2⟩

theorem goodT_frontierLoop (ctx : Ctx) (fuel page : Nat) (s : St)
    (h : GoodT ctx s) : GoodT ctx (frontierLoop ctx fuel page s) := by
  induction fuel generalizing page s with
  | zero => exact h
  | succ fuel ih =>
    unfold frontierLoop
    dsimp only
    split_ifs with h1 h2 h3
    · exact h
    · exact goodT_fetchGalleryPage ctx page s h
    · exact goodT_fetchGalleryPage ctx page s h
    · exact ih _ _ (goodT_fetchGalleryPage ctx page s h)

theorem goodT_step (ctx : Ctx) (i : Nat) (s : St) (h : GoodT ctx s) :
    GoodT ctx (step ctx i s) :=
  ⟨conserv_step ctx i s h.1, gkey_step ctx i s h.2.1,
   pkey_step ctx i s h.2.2.1, photoBound_step ctx i s h.2.2.2⟩

theorem goodT_seqRun (ctx : Ctx) (ch : Nat → Nat) (n : Nat) (s : St)
    (h : GoodT ctx s) : GoodT ctx (seqRun ctx ch n s) := by
  induction n generalizing ch s with
  | zero => exact h
  | succ n ih => exact ih _ _ (goodT_step ctx (ch 0) s h)

theorem goodT_initSt (ctx : Ctx) (fs0 : List (String × String)) :
    GoodT ctx (initSt fs0) := by
  refine ⟨fun t => rfl, fun k => rfl, fun k => rfl, fun k => le_refl 0⟩

theorem parsedOnce_of_goodT (ctx : Ctx) (s : St) (h : GoodT ctx s) (k : String) :
    s.execHist.count (.photosInGallery (galleryXmlFilename ctx k)) ≤ 1 := by
  obtain ⟨hc, hg, _, hpb⟩ := h
  have h1 := hc (.photosInGallery (galleryXmlFilename ctx k))
  have h2 := hpb k
  have h3 := hc (.galleryFetch k)
  have h4 := hg k
  split_ifs at h4 <;> omega

/-- C7: for every finite reference graph bounded by key universes — cycles
allowed (A links to B and B back to A) — every schedule of the crawl
reaches a final state (queue drained or process dead) within the
termination measure of the post-frontier state; whenever the drained
state is reached alive the in-flight counter is zero; every gallery's
metadata is parsed at most once; and at most one fetcher is ever spawned
per gallery identifier — registry deduplication, not depth tracking,
gates the recursion. -/
theorem C7_cyclic_crawl_terminates (ctx : Ctx) (ug up : List String)
    (fs0 : List (String × String)) (fuel : Nat) (ch : Nat → Nat)
    (hkb : KeyBound ctx ug up) :
    (∃ n, n ≤ measureSt ug up (frontierLoop ctx fuel 1 (initSt fs0)) ∧
       finalSt (crawlRun ctx fuel fs0 ch n)) ∧
    (∀ n, (crawlRun ctx fuel fs0 ch n).halted = none →
       (crawlRun ctx fuel fs0 ch n).pending = [] →
       OperationsInFlight (crawlRun ctx fuel fs0 ch n) = 0) ∧
    (∀ n k, (crawlRun ctx fuel fs0 ch n).execHist.count
       (.photosInGallery (galleryXmlFilename ctx k)) ≤ 1) ∧
    (∀ n k, (crawlRun ctx fuel fs0 ch n).spawned.count (.galleryFetch k) ≤ 1) := by
  simp only [crawlRun]
  refine ⟨?_, ?_, ?_, ?_⟩
  · obtain ⟨n, hn, hf⟩ := seqRun_reaches_final ctx ug up hkb
      (measureSt ug up (frontierLoop ctx fuel 1 (initSt fs0)))
      (frontierLoop ctx fuel 1 (initSt fs0)) ch (le_refl _)
    exact ⟨n, hn, hf⟩
  · intro n hlive hpend
    have hinv : OpsInv (seqRun ctx ch n (frontierLoop ctx fuel 1 (initSt fs0))) :=
      seqRun_inv ctx ch n _ (frontierLoop_inv ctx fuel 1 (initSt fs0) (fun _ => rfl))
    have := hinv hlive
    rw [hpend] at this
    simpa [OperationsInFlight] using this
  · intro n k
    have hg : GoodT ctx (seqRun ctx ch n (frontierLoop ctx fuel 1 (initSt fs0))) :=
      goodT_seqRun ctx ch n _ (goodT_frontierLoop ctx fuel 1 _ (goodT_initSt ctx fs0))
    exact parsedOnce_of_goodT ctx _ hg k
  · intro n k
    have hg : GoodT ctx (seqRun ctx ch n (frontierLoop ctx fuel 1 (initSt fs0))) :=
      goodT_seqRun ctx ch n _ (goodT_frontierLoop ctx fuel 1 _ (goodT_initSt ctx fs0))
    have := hg.2.1 k
    split_ifs at this <;> omega

theorem keyBound_ctxCycle : KeyBound ctxCycle ["aaaaaaaa", "bbbbbbbb"] [] := by
  intro c ms hp
  have hp' : (if c = "bodyA" then some msA
      else if c = "bodyB" then some msB else none) = some ms := hp
  split_ifs at hp' with h1 h2
  · cases hp'
    constructor
    · intro url hurl k hk
      simp [msA] at hurl
      subst hurl
      rw [show findKey "/gallery/bbbbbbbb" galleryPat = some "bbbbbbbb" from
        by decide] at hk
      cases hk
      decide
    · intro item hitem
      simp [msA] at hitem
  · cases hp'
    constructor
    · intro url hurl k hk
      simp [msB] at hurl
      subst hurl
      rw [show findKey "/gallery/aaaaaaaa" galleryPat = some "aaaaaaaa" from
        by decide] at hk
      cases hk
      decide
    · intro item hitem
      simp [msB] at hitem

/-- Witness for C7 on the concrete two-gallery cycle (aaaaaaaa links to
bbbbbbbb, which links back): the crawl reaches a final state and each
gallery is parsed at most once. -/
theorem C7_cyclic_crawl_terminates_witness :
    (∃ n, n ≤ measureSt ["aaaaaaaa", "bbbbbbbb"] []
        (frontierLoop ctxCycle 5 1 (initSt [])) ∧
       finalSt (crawlRun ctxCycle 5 [] (fun _ => 0) n)) ∧
    (∀ n k, (crawlRun ctxCycle 5 [] (fun _ => 0) n).execHist.count
       (.photosInGallery (galleryXmlFilename ctxCycle k)) ≤ 1) := by
  have h := C7_cyclic_crawl_terminates ctxCycle ["aaaaaaaa", "bbbbbbbb"] [] [] 5
    (fun _ => 0) keyBound_ctxCycle
  exact ⟨h.1, h.2.2.1⟩
